import Mathlib

/-!
# Verification of the vibestick core against its specification

Shallow embedding of the vibestick Stream Deck controller core
(`src/keyboard_parser.py`, `src/button_manager.py`, `src/command_executor.py`,
`src/config_watcher.py`) in Lean 4, with theorems settling the frozen claims
about the natural-language specification.

Modelling conventions, used throughout:
* Python strings are Lean `String`s; all character-level work (splitting,
  trimming, lowercasing) is done on the underlying `List Char`, matching
  Python behaviour for the ASCII inputs the program handles.
* Python `None`-able values are `Option`s.  Python truthiness of a possibly
  missing string (`if not x`) is `optStrTruthy`, which is false exactly for
  `none` and `some ""` — the two cases Python's `not x` conflates.
* Python dicts keyed by int/string are association lists with
  first-match lookup and replace-or-append assignment, as in the source's
  `dict` usage; Python sets are lists used only through membership.
* External effects (subprocess exit codes, HTTP calls, the filesystem seen
  by the watcher, the startup host environment) are oracle structures passed
  explicitly; the embedded code consumes them exactly where the Python code
  performs the corresponding effect.
-/

/-- Python truthiness of an optional string: `None` and `""` are falsy. -/
def optStrTruthy : Option String → Bool
  | none => false
  | some s => s ≠ ""

/-- Characters of a string. -/
def strChars (s : String) : List Char := s.data

/-- Lowercase a string (ASCII, matching the program's inputs);
models Python `str.lower()`. -/
def strToLower (s : String) : String := ⟨s.data.map Char.toLower⟩

/-- Drop leading whitespace from a character list. -/
def dropLeadingWs (cs : List Char) : List Char := cs.dropWhile Char.isWhitespace

/-- Both-ends trim on a character list; models Python `str.strip()`. -/
def trimBoth (cs : List Char) : List Char :=
  ((dropLeadingWs cs).reverse.dropWhile Char.isWhitespace).reverse

/-- Right-only trim; models Python `str.rstrip()`. -/
def trimRight (cs : List Char) : List Char :=
  (cs.reverse.dropWhile Char.isWhitespace).reverse

/-- Split at every occurrence of `sep`, keeping empty pieces;
models Python `str.split(sep)` for a single-character separator. -/
def splitOnCharAux (sep : Char) : List Char → List Char → List (List Char)
  | [], acc => [acc.reverse]
  | c :: cs, acc =>
    if c = sep then acc.reverse :: splitOnCharAux sep cs []
    else splitOnCharAux sep cs (c :: acc)

/-- See `splitOnCharAux`. -/
def splitOnChar (sep : Char) (cs : List Char) : List (List Char) :=
  splitOnCharAux sep cs []

/-- Split on runs of whitespace, dropping empty pieces;
models Python `str.split()` with no argument. -/
def splitWhitespaceL : List Char → List (List Char)
  | [] => []
  | c :: cs =>
    if c.isWhitespace then splitWhitespaceL cs
    else
      match splitWhitespaceL cs with
      | [] => [[c]]
      | t :: ts =>
        -- a token continues while the previous character was not whitespace;
        -- detect a break by looking at the head of the remaining input
        match cs with
        | [] => [[c]]
        | c' :: _ => if c'.isWhitespace then [c] :: t :: ts else (c :: t) :: ts

/-- First-match lookup in a string-keyed association list
(models Python `dict.get` / `in` for the literal dict tables). -/
def dictLookup {β : Type} (d : List (String × β)) (k : String) : Option β :=
  match d with
  | [] => none
  | (k', v) :: rest => if k' = k then some v else dictLookup rest k

/-- Key membership in a string-keyed association list (Python `k in dict`). -/
def dictContains {β : Type} (d : List (String × β)) (k : String) : Bool :=
  (dictLookup d k).isSome

namespace KeyboardShortcutParser

/-- Models `KeyboardShortcutParser.MODIFIERS`: alias → AppleScript modifier clause. -/
def MODIFIERS : List (String × String) :=
  [("cmd", "command down"), ("command", "command down"),
   ("ctrl", "control down"), ("control", "control down"),
   ("alt", "option down"), ("option", "option down"), ("opt", "option down"),
   ("shift", "shift down"), ("fn", "function down")]

/-- Models `KeyboardShortcutParser.SPECIAL_KEYS`: named key → macOS key code. -/
def SPECIAL_KEYS : List (String × Nat) :=
  [("space", 49), ("return", 36), ("enter", 36), ("tab", 48),
   ("delete", 51), ("backspace", 51), ("escape", 53), ("esc", 53),
   ("up", 126), ("down", 125), ("left", 123), ("right", 124),
   ("home", 115), ("end", 119), ("pageup", 116), ("pagedown", 121),
   ("f1", 122), ("f2", 120), ("f3", 99), ("f4", 118), ("f5", 96),
   ("f6", 97), ("f7", 98), ("f8", 100), ("f9", 101), ("f10", 109),
   ("f11", 103), ("f12", 111), ("f13", 105), ("f14", 107), ("f15", 113)]

/-- Models `KeyboardShortcutParser.KEY_CODES`: printable character → macOS key code. -/
def KEY_CODES : List (String × Nat) :=
  [("a", 0), ("s", 1), ("d", 2), ("f", 3), ("h", 4), ("g", 5), ("z", 6), ("x", 7),
   ("c", 8), ("v", 9), ("b", 11), ("q", 12), ("w", 13), ("e", 14), ("r", 15),
   ("y", 16), ("t", 17), ("1", 18), ("2", 19), ("3", 20), ("4", 21), ("6", 22),
   ("5", 23), ("=", 24), ("9", 25), ("7", 26), ("-", 27), ("8", 28), ("0", 29),
   ("]", 30), ("o", 31), ("u", 32), ("[", 33), ("i", 34), ("p", 35), ("l", 37),
   ("j", 38), ("\x27", 39), ("k", 40), (";", 41), ("\\", 42), (",", 43), ("/", 44),
   ("n", 45), ("m", 46), (".", 47), ("`", 50)]

/-- One parsed keystroke action, the dict
`{'type': 'keystroke', 'modifiers': [...], 'key': ...}` built by
`_parse_single_combination`. -/
structure KeystrokeAction where
  actionType : String
  modifiers : List String
  key : String
deriving DecidableEq, Repr, Inhabited

/-- Models `_parse_single_combination`: split one combination on `+`, trim and
lowercase every token, take the last token as the key and keep the earlier
tokens that are recognized modifier aliases. -/
def parseSingleCombination (combo : List Char) : Option KeystrokeAction :=
  let parts : List String :=
    (splitOnChar '+' combo).map (fun p => String.mk ((trimBoth p).map Char.toLower))
  match parts with
  | [] => none
  | p :: ps =>
    let mainKey := (ps.getLastD p)
    let modifiers := if (p :: ps).length > 1 then (p :: ps).dropLast else []
    some { actionType := "keystroke"
           modifiers := modifiers.filter (fun m => dictContains MODIFIERS m)
           key := mainKey }

/-- Models `KeyboardShortcutParser.parse`: empty string → no events; otherwise strip,
split on whitespace and parse each combination, keeping the (always truthy)
results in input order. -/
def parse (shortcut : String) : List KeystrokeAction :=
  if shortcut = "" then []
  else (splitWhitespaceL (trimBoth shortcut.data)).filterMap parseSingleCombination

/-- Models `KeyboardShortcutParser.to_applescript`: deterministic rendering of one
parsed action as an AppleScript line.  The braces of the `using` clause are
written with their character codes. -/
def to_applescript (action : KeystrokeAction) : String :=
  if action.actionType ≠ "keystroke" then ""
  else
    let key := action.key
    let modifiers := action.modifiers
    let usingClause :=
      if modifiers ≠ [] then
        " using \x7b" ++
          String.intercalate ", "
            (modifiers.map (fun m => (dictLookup MODIFIERS m).getD (m ++ " down"))) ++
          "\x7d"
      else ""
    match dictLookup SPECIAL_KEYS key with
    | some keyCode =>
      "tell application \"System Events\" to key code " ++ toString keyCode ++ usingClause
    | none =>
      match dictLookup KEY_CODES key with
      | some keyCode =>
        "tell application \"System Events\" to key code " ++ toString keyCode ++ usingClause
      | none =>
        if key.length = 1 then
          "tell application \"System Events\" to keystroke \"" ++ key ++ "\"" ++ usingClause
        else
          match parseIntKey key.data with
          | some keyCode =>
            "tell application \"System Events\" to key code " ++ toString keyCode ++ usingClause
          | none =>
            "tell application \"System Events\" to keystroke \"" ++ key ++ "\"" ++ usingClause
where
  /-- Python `int(key)` on an already-trimmed token: optional sign then a
  nonempty run of decimal digits; any other shape raises `ValueError`,
  which the source catches and turns into the fallback branch. -/
  parseIntKey (cs : List Char) : Option Int :=
    match cs with
    | '-' :: rest => (parseDigits rest).map (fun n => -(n : Int))
    | '+' :: rest => (parseDigits rest).map (fun n => (n : Int))
    | _ => (parseDigits cs).map (fun n => (n : Int))
  parseDigits (cs : List Char) : Option Nat :=
    if cs = [] then none
    else if cs.all Char.isDigit then
      some (cs.foldl (fun acc c => acc * 10 + (c.toNat - 48)) 0)
    else none

end KeyboardShortcutParser


/-! ## Parser lemmas -/

theorem splitOnCharAux_ne_nil (sep : Char) :
    ∀ (cs acc : List Char), splitOnCharAux sep cs acc ≠ [] := by
  intro cs
  induction cs with
  | nil => intro acc; simp [splitOnCharAux]
  | cons c cs ih =>
    intro acc
    unfold splitOnCharAux
    by_cases h : c = sep
    · simp [h]
    · simpa [h] using ih (c :: acc)

theorem splitOnChar_ne_nil (sep : Char) (cs : List Char) : splitOnChar sep cs ≠ [] :=
  splitOnCharAux_ne_nil sep cs []

theorem parseSingleCombination_isSome (cs : List Char) :
    (KeyboardShortcutParser.parseSingleCombination cs).isSome := by
  unfold KeyboardShortcutParser.parseSingleCombination
  dsimp only
  split
  · next heq =>
    exact absurd (List.map_eq_nil_iff.mp heq) (splitOnChar_ne_nil '+' cs)
  · simp

theorem dictContains_mem_keys {β : Type} (d : List (String × β)) (k : String)
    (h : dictContains d k = true) : k ∈ d.map Prod.fst := by
  induction d with
  | nil => simp [dictContains, dictLookup] at h
  | cons p rest ih =>
    rw [dictContains, dictLookup] at h
    by_cases hk : p.1 = k
    · simp [hk.symm]
    · obtain ⟨p1, p2⟩ := p
      simp only at hk
      simp only [hk, if_false] at h
      exact List.mem_cons_of_mem _ (ih h)

theorem filterMap_getElem?_of_total {α β : Type} (f : α → Option β)
    (h : ∀ a, (f a).isSome) :
    ∀ (l : List α) (i : Nat), (l.filterMap f)[i]? = l[i]?.bind f := by
  intro l
  induction l with
  | nil => intro i; simp
  | cons a l ih =>
    intro i
    obtain ⟨b, hb⟩ := Option.isSome_iff_exists.mp (h a)
    cases i with
    | zero => simp [List.filterMap_cons, hb]
    | succ n => simp [List.filterMap_cons, hb, ih]

theorem filterMap_length_of_total {α β : Type} (f : α → Option β)
    (h : ∀ a, (f a).isSome) :
    ∀ l : List α, (l.filterMap f).length = l.length := by
  intro l
  induction l with
  | nil => simp
  | cons a l ih =>
    obtain ⟨b, hb⟩ := Option.isSome_iff_exists.mp (h a)
    simp [List.filterMap_cons, hb, ih]

/-- Keys of the modifier-alias table, as a literal list. -/
theorem MODIFIERS_keys :
    KeyboardShortcutParser.MODIFIERS.map Prod.fst
      = ["cmd", "command", "ctrl", "control", "alt", "option", "opt", "shift", "fn"] := by
  decide

/-! ## Claims about the shortcut parser -/

/-- C3 (counterexample): `parse "Cmd+Shift+N"` yields one event, but its
modifier list is `["cmd", "shift"]` — the lowercased alias tokens — and does
not contain the canonical name `"command"`, so the modifier set is not the
canonical `{command, shift}` the claim states. -/
theorem C3_counterexample :
    KeyboardShortcutParser.parse "Cmd+Shift+N"
        = [{ actionType := "keystroke", modifiers := ["cmd", "shift"], key := "n" }]
      ∧ "command" ∉ (["cmd", "shift"] : List String)
      ∧ (KeyboardShortcutParser.parse "Ctrl+C Ctrl+C").map
            KeyboardShortcutParser.KeystrokeAction.modifiers = [["ctrl"], ["ctrl"]]
      ∧ "control" ∉ (["ctrl"] : List String) := by
  decide

/-- C3 (amended): `parse "Cmd+Shift+N"` yields exactly one event with modifier
tokens `["cmd", "shift"]` and key `"n"`; `parse "Ctrl+C Ctrl+C"` yields exactly
two events, each with modifier tokens `["ctrl"]` and key `"c"`; in general each
modifier token of a combination is matched case-insensitively (by lowercasing)
against the alias table and kept, in lowercased alias form, exactly when it is
one of the nine recognized aliases `cmd, command, ctrl, control, alt, option,
opt, shift, fn`; folding to the canonical AppleScript modifier names happens
only in `to_applescript`, not in `parse`. -/
theorem C3_modifier_folding :
    KeyboardShortcutParser.parse "Cmd+Shift+N"
        = [{ actionType := "keystroke", modifiers := ["cmd", "shift"], key := "n" }]
      ∧ KeyboardShortcutParser.parse "Ctrl+C Ctrl+C"
        = [{ actionType := "keystroke", modifiers := ["ctrl"], key := "c" },
           { actionType := "keystroke", modifiers := ["ctrl"], key := "c" }]
      ∧ (∀ (cs : List Char) (a : KeyboardShortcutParser.KeystrokeAction),
          KeyboardShortcutParser.parseSingleCombination cs = some a →
          a.modifiers
            = (let parts := (splitOnChar '+' cs).map
                (fun p => String.mk ((trimBoth p).map Char.toLower));
              (if parts.length > 1 then parts.dropLast else []).filter
                (fun m => dictContains KeyboardShortcutParser.MODIFIERS m)))
      ∧ KeyboardShortcutParser.parse "Cmd+Command+Ctrl+Control+Alt+Option+Opt+Shift+Fn+N"
        = [{ actionType := "keystroke",
             modifiers := ["cmd", "command", "ctrl", "control", "alt", "option",
                           "opt", "shift", "fn"],
             key := "n" }]
      ∧ (∀ (cs : List Char) (a : KeyboardShortcutParser.KeystrokeAction),
          KeyboardShortcutParser.parseSingleCombination cs = some a →
          ∀ m ∈ a.modifiers,
            m ∈ ["cmd", "command", "ctrl", "control", "alt", "option", "opt", "shift", "fn"]) := by
  refine ⟨by decide, by decide, ?_, by decide, ?_⟩
  · intro cs a h
    rw [KeyboardShortcutParser.parseSingleCombination] at h
    dsimp only at h
    split at h
    · exact absurd h (by simp)
    · next p ps heq =>
      have ha := (Option.some_inj.mp h).symm
      subst ha
      dsimp only
      rw [heq]
  · intro cs a h m hm
    rw [KeyboardShortcutParser.parseSingleCombination] at h
    dsimp only at h
    split at h
    · exact absurd h (by simp)
    · next p ps heq =>
      have ha := (Option.some_inj.mp h).symm
      subst ha
      simp only at hm
      have hc := (List.mem_filter.mp hm).2
      rw [← MODIFIERS_keys]
      exact dictContains_mem_keys _ _ hc

/-- C3 witness for the hypothesis-bearing conjuncts: a concrete combination
whose kept modifier list is exactly the recognized-alias filter of its
lowercased leading tokens, and whose kept token lies in the alias-key
list. -/
theorem C3_modifier_folding_witness :
    KeyboardShortcutParser.parseSingleCombination (strChars "Cmd+Shift+N")
        = some { actionType := "keystroke", modifiers := ["cmd", "shift"], key := "n" }
      ∧ ({ actionType := "keystroke", modifiers := ["cmd", "shift"], key := "n" }
            : KeyboardShortcutParser.KeystrokeAction).modifiers
        = (let parts := (splitOnChar '+' (strChars "Cmd+Shift+N")).map
              (fun p => String.mk ((trimBoth p).map Char.toLower));
          (if parts.length > 1 then parts.dropLast else []).filter
            (fun m => dictContains KeyboardShortcutParser.MODIFIERS m))
      ∧ "cmd" ∈ ["cmd", "command", "ctrl", "control", "alt", "option", "opt", "shift", "fn"] := by
  refine ⟨by decide, ?_, ?_⟩
  · exact C3_modifier_folding.2.2.1 (strChars "Cmd+Shift+N")
      { actionType := "keystroke", modifiers := ["cmd", "shift"], key := "n" }
      (by decide)
  · exact C3_modifier_folding.2.2.2.2 (strChars "Cmd+Shift+N")
      { actionType := "keystroke", modifiers := ["cmd", "shift"], key := "n" }
      (by decide) "cmd" (by decide)

/-- C4: for every shortcut string, `parse` returns exactly as many events as
there are whitespace-separated combinations, the i-th event is the parse of
the i-th combination (input order), and parsing is deterministic: equal input
strings yield equal event sequences. -/
theorem C4_parse_count_order_deterministic (s : String) :
    (KeyboardShortcutParser.parse s).length = (splitWhitespaceL (trimBoth s.data)).length
    ∧ (∀ i : Nat,
        (KeyboardShortcutParser.parse s)[i]?
          = (splitWhitespaceL (trimBoth s.data))[i]?.bind
              KeyboardShortcutParser.parseSingleCombination)
    ∧ (∀ t : String, s = t → KeyboardShortcutParser.parse s = KeyboardShortcutParser.parse t) := by
  refine ⟨?_, ?_, fun t ht => by rw [ht]⟩
  · rw [KeyboardShortcutParser.parse]
    split
    · next hs => subst hs; decide
    · exact filterMap_length_of_total _ parseSingleCombination_isSome _
  · intro i
    rw [KeyboardShortcutParser.parse]
    split
    · next hs =>
      subst hs
      have : splitWhitespaceL (trimBoth ("" : String).data) = [] := by decide
      simp [this]
    · exact filterMap_getElem?_of_total _ parseSingleCombination_isSome _ i

/-- C4 witness: the two-combination string `"Ctrl+C Ctrl+C"`, instantiating
the theorem at a concrete input and discharging the determinism hypothesis. -/
theorem C4_parse_count_order_deterministic_witness :
    (KeyboardShortcutParser.parse "Ctrl+C Ctrl+C").length
        = (splitWhitespaceL (trimBoth (strChars "Ctrl+C Ctrl+C"))).length
      ∧ (KeyboardShortcutParser.parse "Ctrl+C Ctrl+C")[1]?
        = (splitWhitespaceL (trimBoth (strChars "Ctrl+C Ctrl+C")))[1]?.bind
            KeyboardShortcutParser.parseSingleCombination
      ∧ KeyboardShortcutParser.parse "Ctrl+C Ctrl+C"
        = KeyboardShortcutParser.parse "Ctrl+C Ctrl+C" := by
  have h := C4_parse_count_order_deterministic "Ctrl+C Ctrl+C"
  exact ⟨h.1, h.2.1 1, h.2.2 "Ctrl+C Ctrl+C" rfl⟩

/-! ## Action dictionaries

An action descriptor is a JSON object read by `execute_action` through
`action.get(...)` / `"k" in action`.  Each key the source consults is a field;
an absent key is `none`.  (A key explicitly present with JSON `null` is not
distinguished from an absent key; the configuration format never writes
`null` values.) -/

structure ActionD where
  actionType : Option String := none    -- the "type" key
  command : Option String := none
  app : Option String := none
  script : Option String := none
  application : Option String := none
  shortcut : Option String := none
  keys : Option (List String) := none
  trigger_name : Option String := none
deriving DecidableEq, Repr, Inhabited

/-! ## Button manager (`src/button_manager.py`)

The button dict `self.buttons : Dict[int, Button]` is modelled as an
association list with first-match lookup; dict assignment replaces the
existing entry in place (preserving order, as Python dicts do) or appends a
new one.  `ButtonState` and `Button` follow the source dataclass; field
`image_path` keeps its source name. -/

inductive ButtonState where
  | normal
  | selected
  | pressed
deriving DecidableEq, Repr, Inhabited

structure Button where
  index : Nat
  row : Nat
  column : Nat
  mode : Option String := none
  label : Option String := none
  image_path : Option String := none
  action : Option ActionD := none
  state : ButtonState := .normal
  computer : Option String := none
deriving DecidableEq, Repr, Inhabited

/-- First-match lookup in the button map (Python `self.buttons[i]` /
`self.buttons.get(i)`). -/
def lookupB : List (Nat × Button) → Nat → Option Button
  | [], _ => none
  | (k, b) :: rest, i => if k = i then some b else lookupB rest i

/-- Key membership (Python `i in self.buttons`). -/
def containsB (l : List (Nat × Button)) (i : Nat) : Bool := (lookupB l i).isSome

/-- Dict assignment `self.buttons[i] = b`: replace the entry for key `i` if
present (keeping its position, as Python dicts do), else append. -/
def insertB : List (Nat × Button) → Nat → Button → List (Nat × Button)
  | [], i, b => [(i, b)]
  | (k, v) :: rest, i, b =>
    if k = i then (i, b) :: rest else (k, v) :: insertB rest i b

/-- In-place mutation `self.buttons[i].state = st`; a no-op when `i` is not a
key (the source always guards this with a membership test). -/
def setStateB : List (Nat × Button) → Nat → ButtonState → List (Nat × Button)
  | [], _, _ => []
  | (k, v) :: rest, i, st =>
    if k = i then (k, { v with state := st }) :: rest
    else (k, v) :: setStateB rest i st

/-- One entry of a `buttons` / `centerButtons` configuration list: the keys
`setup_fixed_buttons` / `setup_center_buttons` read from each element. -/
structure PosDef where
  row : Option Nat := none
  column : Option Nat := none
deriving DecidableEq, Repr, Inhabited

/-- See `PosDef`.  `position` missing means `button_config.get("position", {})`
yields the empty dict, i.e. both coordinates read as `None`. -/
structure ButtonDef where
  position : Option PosDef := none
  mode : Option String := none
  label : Option String := none
  image : Option String := none
  action : Option ActionD := none
deriving DecidableEq, Repr, Inhabited

structure ButtonManager where
  rows : Nat
  columns : Nat
  total_buttons : Nat
  buttons : List (Nat × Button)
  current_mode : String
  current_computer : String
  selected_button : Option Nat
deriving DecidableEq, Repr

namespace ButtonManager

/-- Models `ButtonManager.__init__` (defaults `rows=3, columns=5`): pre-populate all
`rows*columns` empty buttons, mode `"terminal"`, computer `"laptop"`, no
selection.  `_index_to_position` is `(i / columns, i % columns)`; the grids the
program constructs always have `columns > 0`. -/
def init (rows : Nat := 3) (columns : Nat := 5) : ButtonManager :=
  { rows := rows
    columns := columns
    total_buttons := rows * columns
    buttons := (List.range (rows * columns)).map
      (fun i => (i, { index := i, row := i / columns, column := i % columns }))
    current_mode := "terminal"
    current_computer := "laptop"
    selected_button := none }

/-- Loop body of `ButtonManager.setup_fixed_buttons`: read the definition's
position, skip it when a coordinate is missing, and write the new button when
its index is in range. -/
def fixedStep (computer : String) (st : ButtonManager) (bc : ButtonDef) : ButtonManager :=
  let pos := bc.position.getD {}
  match pos.row, pos.column with
  | some row, some col =>
    let index := row * st.columns + col
    if index < st.total_buttons then
      let b : Button :=
        { index := index, row := row, column := col, mode := bc.mode,
          label := bc.label, image_path := bc.image, action := bc.action,
          computer := some computer }
      { st with buttons := insertB st.buttons index b }
    else st
  | _, _ => st

/-- Models `ButtonManager.setup_fixed_buttons`.  Note that the `side` argument is
received but never read by the source body. -/
def setup_fixed_buttons (s : ButtonManager) (side : String)
    (buttons_config : List ButtonDef) (computer : String) : ButtonManager :=
  buttons_config.foldl (fixedStep computer) s

/-- Models `ButtonManager.setup_center_buttons`: clear columns 1–3 of every row to
fresh empty buttons (the source performs these writes without a bounds check),
then repopulate from the definitions, only for columns 1–3 and in-range
indices, tagging each button with the given mode and the current computer.
The clearing loop body below writes a fresh empty button. -/
def centerClearStep (row : Nat) (st2 : ButtonManager) (col : Nat) : ButtonManager :=
  let index := row * st2.columns + col
  let b : Button := { index := index, row := row, column := col }
  { st2 with buttons := insertB st2.buttons index b }

/-- Loop body of the repopulation phase of `setup_center_buttons`. -/
def centerPopStep (mode : String) (st : ButtonManager) (bc : ButtonDef) : ButtonManager :=
  let pos := bc.position.getD {}
  match pos.row, pos.column with
  | some row, some col =>
    if 1 ≤ col ∧ col ≤ 3 then
      let index := row * st.columns + col
      if index < st.total_buttons then
        let b : Button :=
          { index := index, row := row, column := col, mode := some mode,
            label := bc.label, image_path := bc.image, action := bc.action,
            computer := some st.current_computer }
        { st with buttons := insertB st.buttons index b }
      else st
    else st
  | _, _ => st

def setup_center_buttons (s : ButtonManager)
    (buttons_config : List ButtonDef) (mode : String) : ButtonManager :=
  let cleared := (List.range s.rows).foldl
    (fun st row => ([1, 2, 3] : List Nat).foldl (centerClearStep row) st) s
  buttons_config.foldl (centerPopStep mode) cleared

/-- Models `ButtonManager.get_button`. -/
def get_button (s : ButtonManager) (index : Nat) : Option Button :=
  lookupB s.buttons index

/-- Models `ButtonManager.set_selected_button`: clear the previous selection's visual
state (when that index is still a key), record the new selection, and mark the
new index selected when it is a key. -/
def set_selected_button (s : ButtonManager) (index : Option Nat) : ButtonManager :=
  let bs1 := match s.selected_button with
    | some j => setStateB s.buttons j .normal
    | none => s.buttons
  let bs2 := match index with
    | some i => if containsB bs1 i then setStateB bs1 i .selected else bs1
    | none => bs1
  { s with buttons := bs2, selected_button := index }

/-- Models `ButtonManager.press_button`: unknown index → `none`; a button in column
0 or 4 carrying a truthy mode commits the mode switch (computer `"laptop"` for
column 0, `"desktop"` otherwise) and moves the selection; any other press
leaves the state untouched.  The returned button is the (possibly mutated)
object stored in the map, as in the source, where the dict aliases it. -/
def press_button (s : ButtonManager) (index : Nat) : Option Button × ButtonManager :=
  match lookupB s.buttons index with
  | none => (none, s)
  | some button =>
    if (button.column = 0 || button.column = 4) && optStrTruthy button.mode then
      let s1 := { s with
        current_mode := button.mode.getD "",
        current_computer := if button.column = 0 then "laptop" else "desktop" }
      let s2 := set_selected_button s1 (some index)
      (lookupB s2.buttons index, s2)
    else (some button, s)

/-- The public mutating operations of `ButtonManager`, for stating
"preserved by every operation". -/
inductive Op where
  | setupFixed (side : String) (cfg : List ButtonDef) (computer : String)
  | setupCenter (cfg : List ButtonDef) (mode : String)
  | select (index : Option Nat)
  | press (index : Nat)

/-- Apply one operation to a manager state. -/
def applyOp (op : Op) (s : ButtonManager) : ButtonManager :=
  match op with
  | .setupFixed side cfg computer => setup_fixed_buttons s side cfg computer
  | .setupCenter cfg mode => setup_center_buttons s cfg mode
  | .select index => set_selected_button s index
  | .press index => (press_button s index).2

/-- Selection coupling invariant: every button whose visual state is
`selected` is the button the manager records as selected. -/
def Coupled (s : ButtonManager) : Prop :=
  ∀ (i : Nat) (b : Button), lookupB s.buttons i = some b →
    b.state = ButtonState.selected → s.selected_button = some i

/-- At most one button holds visual state `selected`. -/
def AtMostOneSelected (s : ButtonManager) : Prop :=
  ∀ (i j : Nat) (bi bj : Button),
    lookupB s.buttons i = some bi → lookupB s.buttons j = some bj →
    bi.state = ButtonState.selected → bj.state = ButtonState.selected → i = j

end ButtonManager

/-! ## Button-map lemmas -/

theorem lookupB_insertB (l : List (Nat × Button)) (i : Nat) (b : Button) (k : Nat) :
    lookupB (insertB l i b) k = if k = i then some b else lookupB l k := by
  induction l with
  | nil =>
    by_cases hk : k = i
    · simp [insertB, lookupB, hk]
    · simp [insertB, lookupB, hk, Ne.symm hk]
  | cons q rest ih =>
    obtain ⟨k', v⟩ := q
    by_cases hki : k' = i
    · subst hki
      by_cases hk : k = k'
      · subst hk; simp [insertB, lookupB]
      · simp [insertB, lookupB, hk, Ne.symm hk]
    · by_cases hk : k' = k
      · subst hk
        simp [insertB, lookupB, hki]
      · simp [insertB, lookupB, hki, hk, ih]

theorem lookupB_setStateB (l : List (Nat × Button)) (j : Nat) (st : ButtonState) (k : Nat) :
    lookupB (setStateB l j st) k
      = if k = j then (lookupB l k).map (fun b => { b with state := st })
        else lookupB l k := by
  induction l with
  | nil => simp [setStateB, lookupB]
  | cons q rest ih =>
    obtain ⟨k', v⟩ := q
    by_cases hkj : k' = j
    · subst hkj
      by_cases hk : k = k'
      · subst hk; simp [setStateB, lookupB]
      · simp [setStateB, lookupB, Ne.symm hk, hk, ih]
    · by_cases hk : k' = k
      · subst hk
        simp [setStateB, lookupB, hkj]
      · simp [setStateB, lookupB, hkj, hk, ih]

theorem containsB_iff (l : List (Nat × Button)) (i : Nat) :
    containsB l i = true ↔ ∃ b, lookupB l i = some b := by
  unfold containsB
  cases h : lookupB l i <;> simp [h]

theorem lookupB_mem (l : List (Nat × Button)) (i : Nat) (b : Button)
    (h : lookupB l i = some b) : (i, b) ∈ l := by
  induction l with
  | nil => simp [lookupB] at h
  | cons q rest ih =>
    obtain ⟨k, v⟩ := q
    by_cases hk : k = i
    · subst hk
      rw [lookupB, if_pos rfl] at h
      exact (Option.some_inj.mp h) ▸ List.mem_cons_self _ _
    · rw [lookupB, if_neg hk] at h
      exact List.mem_cons_of_mem _ (ih h)

namespace ButtonManager

/-- After the clearing phase of `set_selected_button`, no button is selected
(given the coupling invariant). -/
theorem cleared_not_selected (s : ButtonManager) (h : Coupled s) (k : Nat) (b : Button)
    (hl : lookupB (match s.selected_button with
                   | some j => setStateB s.buttons j ButtonState.normal
                   | none => s.buttons) k = some b) :
    b.state ≠ ButtonState.selected := by
  cases hs : s.selected_button with
  | none =>
    rw [hs] at hl
    intro hbs
    have hcontra := h k b hl hbs
    rw [hs] at hcontra
    exact Option.noConfusion hcontra
  | some j =>
    rw [hs] at hl
    rw [lookupB_setStateB] at hl
    by_cases hkj : k = j
    · rw [if_pos hkj] at hl
      obtain ⟨b0, _, hb0e⟩ := Option.map_eq_some'.mp hl
      intro hbs
      rw [← hb0e] at hbs
      exact absurd hbs (by simp)
    · rw [if_neg hkj] at hl
      intro hbs
      have hcontra := h k b hl hbs
      rw [hs] at hcontra
      exact hkj (Option.some_inj.mp hcontra).symm

theorem coupled_set_selected (s : ButtonManager) (idx : Option Nat) (h : Coupled s) :
    Coupled (set_selected_button s idx) := by
  intro i b hl hbs
  simp only [set_selected_button] at hl ⊢
  cases idx with
  | none => exact absurd hbs (cleared_not_selected s h i b hl)
  | some i0 =>
    dsimp only at hl
    by_cases hc : containsB (match s.selected_button with
        | some j => setStateB s.buttons j ButtonState.normal
        | none => s.buttons) i0
    · rw [if_pos hc, lookupB_setStateB] at hl
      by_cases hi : i = i0
      · rw [hi]
      · rw [if_neg hi] at hl
        exact absurd hbs (cleared_not_selected s h i b hl)
    · rw [if_neg hc] at hl
      exact absurd hbs (cleared_not_selected s h i b hl)

theorem coupled_buttons_insert_normal (s : ButtonManager) (i : Nat) (b : Button)
    (hb : b.state = ButtonState.normal) (h : Coupled s) :
    Coupled { s with buttons := insertB s.buttons i b } := by
  intro k bk hl hbs
  simp only at hl
  rw [lookupB_insertB] at hl
  by_cases hk : k = i
  · rw [if_pos hk] at hl
    rw [← Option.some_inj.mp hl] at hbs
    rw [hb] at hbs
    exact absurd hbs (by simp)
  · rw [if_neg hk] at hl
    exact h k bk hl hbs

theorem coupled_fixedStep (computer : String) (st : ButtonManager) (bc : ButtonDef)
    (h : Coupled st) : Coupled (fixedStep computer st bc) := by
  unfold fixedStep
  dsimp only
  split
  · split
    · exact coupled_buttons_insert_normal st _ _ rfl h
    · exact h
  · exact h

theorem coupled_centerClearStep (row : Nat) (st2 : ButtonManager) (col : Nat)
    (h : Coupled st2) : Coupled (centerClearStep row st2 col) :=
  coupled_buttons_insert_normal st2 _ _ rfl h

theorem coupled_centerPopStep (mode : String) (st : ButtonManager) (bc : ButtonDef)
    (h : Coupled st) : Coupled (centerPopStep mode st bc) := by
  unfold centerPopStep
  dsimp only
  split
  · split
    · split
      · exact coupled_buttons_insert_normal st _ _ rfl h
      · exact h
    · exact h
  · exact h

theorem coupled_foldl {α : Type} (f : ButtonManager → α → ButtonManager)
    (hf : ∀ st a, Coupled st → Coupled (f st a)) :
    ∀ (l : List α) (st : ButtonManager), Coupled st → Coupled (l.foldl f st) := by
  intro l
  induction l with
  | nil => intro st h; exact h
  | cons a l ih => intro st h; exact ih (f st a) (hf st a h)

theorem coupled_press (s : ButtonManager) (index : Nat) (h : Coupled s) :
    Coupled (press_button s index).2 := by
  unfold press_button
  split
  · exact h
  · split
    · exact coupled_set_selected _ _ (fun i b hl hbs => h i b hl hbs)
    · exact h

theorem coupled_applyOp (op : Op) (s : ButtonManager) (h : Coupled s) :
    Coupled (applyOp op s) := by
  cases op with
  | setupFixed side cfg computer =>
    exact coupled_foldl _ (coupled_fixedStep computer) cfg s h
  | setupCenter cfg mode =>
    refine coupled_foldl _ (coupled_centerPopStep mode) cfg _ ?_
    refine coupled_foldl _ ?_ (List.range s.rows) s h
    intro st row hst
    exact coupled_foldl _ (coupled_centerClearStep row) [1, 2, 3] st hst
  | select index => exact coupled_set_selected s index h
  | press index => exact coupled_press s index h

theorem coupled_atMostOne (s : ButtonManager) (h : Coupled s) : AtMostOneSelected s := by
  intro i j bi bj hi hj hsi hsj
  have h1 := h i bi hi hsi
  have h2 := h j bj hj hsj
  exact Option.some_inj.mp (h1.symm.trans h2)

theorem coupled_init (rows columns : Nat) : Coupled (init rows columns) := by
  intro i b hl hbs
  have hmem := lookupB_mem _ _ _ hl
  obtain ⟨j, _, hje⟩ := List.mem_map.mp hmem
  injection hje with h1 h2
  rw [← h2] at hbs
  exact absurd hbs (by simp)

end ButtonManager

namespace ButtonManager

/-- Selecting index `i` marks it selected (when present), regardless of the
previous selection. -/
theorem lookupB_set_selected_self (s : ButtonManager) (i : Nat) :
    lookupB (set_selected_button s (some i)).buttons i
      = (lookupB s.buttons i).map (fun b => { b with state := ButtonState.selected }) := by
  simp only [set_selected_button]
  cases hs : s.selected_button with
  | none =>
    by_cases hc : containsB s.buttons i
    · rw [if_pos hc, lookupB_setStateB, if_pos rfl]
    · rw [if_neg hc]
      have hnone : lookupB s.buttons i = none := by
        cases hx : lookupB s.buttons i with
        | none => rfl
        | some v => exact absurd (by simp [containsB, hx]) hc
      rw [hnone]
      rfl
  | some j =>
    by_cases hij : i = j
    · subst hij
      by_cases hc : containsB (setStateB s.buttons i ButtonState.normal) i
      · rw [if_pos hc, lookupB_setStateB, if_pos rfl, lookupB_setStateB, if_pos rfl]
        cases lookupB s.buttons i <;> rfl
      · rw [if_neg hc, lookupB_setStateB, if_pos rfl]
        have hnone : lookupB s.buttons i = none := by
          cases hx : lookupB s.buttons i with
          | none => rfl
          | some v =>
            exfalso
            apply hc
            have hsx : lookupB (setStateB s.buttons i ButtonState.normal) i
                = some { v with state := ButtonState.normal } := by
              rw [lookupB_setStateB, if_pos rfl, hx]
              rfl
            simp [containsB, hsx]
        rw [hnone]
        rfl
    · by_cases hc : containsB (setStateB s.buttons j ButtonState.normal) i
      · rw [if_pos hc, lookupB_setStateB, if_pos rfl, lookupB_setStateB, if_neg hij]
      · rw [if_neg hc, lookupB_setStateB, if_neg hij]
        have hnone : lookupB s.buttons i = none := by
          cases hx : lookupB s.buttons i with
          | none => rfl
          | some v =>
            exfalso
            apply hc
            have hsx : lookupB (setStateB s.buttons j ButtonState.normal) i = some v := by
              rw [lookupB_setStateB, if_neg hij, hx]
            simp [containsB, hsx]
        rw [hnone]
        rfl

end ButtonManager

/-- C5: at most one button holds `visual_state = selected` at any time.  The
freshly built grid satisfies the selection-coupling invariant; every
`ButtonManager` operation (fixed setup, center setup, select, press) preserves
it; the invariant entails that at most one button is selected; and
`set_selected_button i`, when a different index `j` is currently selected,
resets `j`'s state to normal while marking `i` selected. -/
theorem C5_unique_selection :
    (∀ rows columns : Nat, ButtonManager.Coupled (ButtonManager.init rows columns))
    ∧ (∀ (op : ButtonManager.Op) (s : ButtonManager),
        ButtonManager.Coupled s → ButtonManager.Coupled (ButtonManager.applyOp op s))
    ∧ (∀ s : ButtonManager, ButtonManager.Coupled s → ButtonManager.AtMostOneSelected s)
    ∧ (∀ (s : ButtonManager) (i j : Nat), s.selected_button = some j → j ≠ i →
        lookupB (ButtonManager.set_selected_button s (some i)).buttons j
            = (lookupB s.buttons j).map (fun b => { b with state := ButtonState.normal })
          ∧ lookupB (ButtonManager.set_selected_button s (some i)).buttons i
            = (lookupB s.buttons i).map (fun b => { b with state := ButtonState.selected })) := by
  refine ⟨ButtonManager.coupled_init, fun op s h => ButtonManager.coupled_applyOp op s h,
    fun s h => ButtonManager.coupled_atMostOne s h, ?_⟩
  intro s i j hsel hji
  constructor
  · simp only [ButtonManager.set_selected_button]
    rw [hsel]
    by_cases hc : containsB (setStateB s.buttons j ButtonState.normal) i
    · rw [if_pos hc, lookupB_setStateB, if_neg hji, lookupB_setStateB, if_pos rfl]
    · rw [if_neg hc, lookupB_setStateB, if_pos rfl]
  · exact ButtonManager.lookupB_set_selected_self s i

/-- C5 witness: concrete instances discharging each hypothesis of
`C5_unique_selection` — the invariant holds for the default grid, is
preserved by a concrete select, implies at-most-one-selected, and selecting
1 after 2 clears 2 and marks 1. -/
theorem C5_unique_selection_witness :
    ButtonManager.Coupled
        (ButtonManager.applyOp (ButtonManager.Op.select (some 1)) (ButtonManager.init 3 5))
      ∧ ButtonManager.AtMostOneSelected (ButtonManager.init 3 5)
      ∧ lookupB (ButtonManager.set_selected_button
            (ButtonManager.set_selected_button (ButtonManager.init 3 5) (some 2))
            (some 1)).buttons 2
          = (lookupB (ButtonManager.set_selected_button
                (ButtonManager.init 3 5) (some 2)).buttons 2).map
              (fun b => { b with state := ButtonState.normal }) := by
  refine ⟨C5_unique_selection.2.1 _ _ (C5_unique_selection.1 3 5),
    C5_unique_selection.2.2.1 _ (C5_unique_selection.1 3 5), ?_⟩
  exact (C5_unique_selection.2.2.2
    (ButtonManager.set_selected_button (ButtonManager.init 3 5) (some 2)) 1 2
    rfl (by decide)).1

/-- C2 (counterexample): on a 1×3 grid, the button at column 2 = columns−1
(the rightmost, hence "fixed" per the claim) carries mode tag `"code"`, yet
pressing it changes nothing: `press_button` hardcodes the fixed columns as 0
and 4, so for a grid whose last column is not 4 the claimed mode commit does
not happen. -/
theorem C2_counterexample :
    (lookupB (ButtonManager.setup_fixed_buttons (ButtonManager.init 1 3) "right"
        [{ position := some { row := some 0, column := some 2 }, mode := some "code" }]
        "desktop").buttons 2
      = some { index := 2, row := 0, column := 2, mode := some "code",
               computer := some "desktop" })
    ∧ (ButtonManager.setup_fixed_buttons (ButtonManager.init 1 3) "right"
        [{ position := some { row := some 0, column := some 2 }, mode := some "code" }]
        "desktop").columns - 1 = 2
    ∧ (ButtonManager.press_button (ButtonManager.setup_fixed_buttons
          (ButtonManager.init 1 3) "right"
          [{ position := some { row := some 0, column := some 2 }, mode := some "code" }]
          "desktop") 2).2
      = ButtonManager.setup_fixed_buttons (ButtonManager.init 1 3) "right"
          [{ position := some { row := some 0, column := some 2 }, mode := some "code" }]
          "desktop"
    ∧ (ButtonManager.press_button (ButtonManager.setup_fixed_buttons
          (ButtonManager.init 1 3) "right"
          [{ position := some { row := some 0, column := some 2 }, mode := some "code" }]
          "desktop") 2).2.current_mode = "terminal"
    ∧ ("terminal" : String) ≠ "code" := by
  refine ⟨by decide, by decide, by decide, by decide, by decide⟩

/-- C2 (amended): `press_button` with an unknown index returns `none` and
changes nothing; pressing a button in column 0 or column 4 (the hardcoded
fixed columns — equal to 0 and columns−1 only on the default 5-column grid)
that carries a truthy mode tag sets `current_mode` to that mode, sets
`current_computer` to `"laptop"` (primary) for column 0 and `"desktop"`
(secondary) for column 4, moves the selection to the pressed index, and
returns the button (now marked selected); pressing a button in any other
column, or one without a mode tag, returns the button and leaves mode,
computer, selection and the whole state unchanged. -/
theorem C2_press_button (s : ButtonManager) (index : Nat) :
    (lookupB s.buttons index = none →
      ButtonManager.press_button s index = (none, s))
    ∧ (∀ b : Button, lookupB s.buttons index = some b →
        (∀ m : String, (b.column = 0 ∨ b.column = 4) → b.mode = some m → m ≠ "" →
          (ButtonManager.press_button s index).2.current_mode = m
          ∧ (ButtonManager.press_button s index).2.current_computer
              = (if b.column = 0 then "laptop" else "desktop")
          ∧ (ButtonManager.press_button s index).2.selected_button = some index
          ∧ (ButtonManager.press_button s index).1
              = some { b with state := ButtonState.selected })
        ∧ ((b.column ≠ 0 ∧ b.column ≠ 4) ∨ b.mode = none ∨ b.mode = some "" →
            ButtonManager.press_button s index = (some b, s))) := by
  constructor
  · intro h
    simp [ButtonManager.press_button, h]
  · intro b hb
    constructor
    · intro m hcol hm hmne
      have hcond : ((b.column = 0 || b.column = 4) && optStrTruthy b.mode) = true := by
        rcases hcol with h0 | h4
        · simp [h0, hm, optStrTruthy, hmne]
        · simp [h4, hm, optStrTruthy, hmne]
      rw [ButtonManager.press_button, hb]
      dsimp only
      rw [if_pos hcond]
      refine ⟨by simp [ButtonManager.set_selected_button, hm], ?_, rfl, ?_⟩
      · simp [ButtonManager.set_selected_button]
      · have hself := ButtonManager.lookupB_set_selected_self
          { s with current_mode := b.mode.getD "",
                   current_computer := if b.column = 0 then "laptop" else "desktop" }
          index
        dsimp only
        rw [hself]
        · simp only
          rw [hb]
          rfl
    · intro hneg
      have hcond : ((b.column = 0 || b.column = 4) && optStrTruthy b.mode) = false := by
        rcases hneg with ⟨h0, h4⟩ | hn | he
        · simp [h0, h4]
        · simp [hn, optStrTruthy]
        · simp [he, optStrTruthy]
      rw [ButtonManager.press_button, hb]
      dsimp only
      rw [if_neg (by rw [hcond]; exact Bool.false_ne_true)]

/-- C2 witness: concrete instances of `C2_press_button` — an out-of-range
press on the default grid returns none, and pressing a column-0 fixed button
tagged `mode="code"` commits mode `"code"`, computer `"laptop"`, and the
selection. -/
theorem C2_press_button_witness :
    ButtonManager.press_button (ButtonManager.init 3 5) 99 = (none, ButtonManager.init 3 5)
    ∧ (ButtonManager.press_button (ButtonManager.setup_fixed_buttons
          (ButtonManager.init 3 5) "left"
          [{ position := some { row := some 0, column := some 0 }, mode := some "code" }]
          "laptop") 0).2.current_mode = "code"
    ∧ (ButtonManager.press_button (ButtonManager.setup_fixed_buttons
          (ButtonManager.init 3 5) "left"
          [{ position := some { row := some 0, column := some 0 }, mode := some "code" }]
          "laptop") 0).2.current_computer = "laptop"
    ∧ (ButtonManager.press_button (ButtonManager.setup_fixed_buttons
          (ButtonManager.init 3 5) "left"
          [{ position := some { row := some 0, column := some 0 }, mode := some "code" }]
          "laptop") 0).2.selected_button = some 0 := by
  refine ⟨(C2_press_button (ButtonManager.init 3 5) 99).1 (by decide), ?_, ?_, ?_⟩
  all_goals
    have h := ((C2_press_button (ButtonManager.setup_fixed_buttons
        (ButtonManager.init 3 5) "left"
        [{ position := some { row := some 0, column := some 0 }, mode := some "code" }]
        "laptop") 0).2
      (({ index := 0, row := 0, column := 0, mode := some "code",
          computer := some "laptop" } : Button))
      (by decide)).1 "code" (Or.inl rfl) rfl (by decide)
  · exact h.1
  · exact h.2.1
  · exact h.2.2.1

/-- C6 (counterexample): a primary-side (`"left"`) `setup_fixed_buttons` call
whose definition names column 2 places a button — tagged to the given
computer — into column 2, which is neither column 0 nor the last column, so
the claim that `setup_fixed` places buttons only into column 0 for the
primary side is false. -/
theorem C6_counterexample :
    lookupB (ButtonManager.setup_fixed_buttons (ButtonManager.init 3 5) "left"
        [{ position := some { row := some 0, column := some 2 }, mode := some "m" }]
        "laptop").buttons 2
      = some { index := 2, row := 0, column := 2, mode := some "m",
               computer := some "laptop" }
    ∧ lookupB (ButtonManager.init 3 5).buttons 2
      = some { index := 2, row := 0, column := 2 }
    ∧ (2 : Nat) ≠ 0
    ∧ (2 : Nat) ≠ (ButtonManager.init 3 5).columns - 1 := by
  refine ⟨by decide, by decide, by decide, by decide⟩

/-- C6 (amended): `setup_fixed_buttons` ignores its `side` argument entirely
(any two sides produce identical results); a definition missing its row or
its column is skipped without effect (and nothing raises); a well-formed
definition places its button at exactly the (row, column) position it names
— whatever column that is — tagged with the given computer, when the index
is in range, and is skipped when out of range. -/
theorem C6_setup_fixed :
    (∀ (s : ButtonManager) (side1 side2 : String) (cfg : List ButtonDef) (computer : String),
        ButtonManager.setup_fixed_buttons s side1 cfg computer
          = ButtonManager.setup_fixed_buttons s side2 cfg computer)
    ∧ (∀ (computer : String) (st : ButtonManager) (bc : ButtonDef),
        (bc.position.getD {}).row = none ∨ (bc.position.getD {}).column = none →
        ButtonManager.fixedStep computer st bc = st)
    ∧ (∀ (computer : String) (st : ButtonManager) (bc : ButtonDef) (r c : Nat),
        (bc.position.getD {}).row = some r → (bc.position.getD {}).column = some c →
        (r * st.columns + c < st.total_buttons →
          ButtonManager.fixedStep computer st bc
            = { st with
                buttons := insertB st.buttons (r * st.columns + c)
                    (({ index := r * st.columns + c, row := r, column := c, mode := bc.mode,
                        label := bc.label, image_path := bc.image, action := bc.action,
                        state := ButtonState.normal, computer := some computer } : Button)) })
        ∧ (¬ r * st.columns + c < st.total_buttons →
            ButtonManager.fixedStep computer st bc = st)) := by
  refine ⟨fun s side1 side2 cfg computer => rfl, ?_, ?_⟩
  · intro computer st bc h
    rcases h with h | h
    · simp only [ButtonManager.fixedStep, h]
    · rcases hr : (bc.position.getD {}).row with _ | r
      · simp only [ButtonManager.fixedStep, hr]
      · simp only [ButtonManager.fixedStep, hr, h]
  · intro computer st bc r c hr hc
    constructor
    · intro hlt
      simp only [ButtonManager.fixedStep, hr, hc]
      rw [if_pos hlt]
    · intro hlt
      simp only [ButtonManager.fixedStep, hr, hc]
      rw [if_neg hlt]

/-- C6 witness: concrete instances of `C6_setup_fixed` — side `"left"` and
side `"right"` produce the same grid; a positionless definition is skipped;
a (0,0) definition creates exactly the expected button. -/
theorem C6_setup_fixed_witness :
    ButtonManager.setup_fixed_buttons (ButtonManager.init 3 5) "left" [] "laptop"
        = ButtonManager.setup_fixed_buttons (ButtonManager.init 3 5) "right" [] "laptop"
    ∧ ButtonManager.fixedStep "laptop" (ButtonManager.init 3 5) { mode := some "m" }
        = ButtonManager.init 3 5
    ∧ ButtonManager.fixedStep "laptop" (ButtonManager.init 3 5)
          { position := some { row := some 0, column := some 0 }, mode := some "m" }
        = { ButtonManager.init 3 5 with
            buttons := insertB (ButtonManager.init 3 5).buttons 0
                (({ index := 0, row := 0, column := 0, mode := some "m",
                    computer := some "laptop" } : Button)) } := by
  refine ⟨C6_setup_fixed.1 (ButtonManager.init 3 5) "left" "right" [] "laptop",
    C6_setup_fixed.2.1 "laptop" (ButtonManager.init 3 5) { mode := some "m" }
      (Or.inl rfl), ?_⟩
  exact (C6_setup_fixed.2.2 "laptop" (ButtonManager.init 3 5)
    { position := some { row := some 0, column := some 0 }, mode := some "m" }
    0 0 rfl rfl).1 (by decide)

/-! ## Config watcher (`src/config_watcher.py`)

`_check_for_changes` walks the directory's JSON files; the filesystem state a
poll cycle observes is a list of `(path, snapshot)` pairs, one per file the
glob yields, where a snapshot records the `stat` outcome (`none` = `OSError`,
the file vanished between glob and stat) and whether `open`+`json.load`
succeeds.  `self._file_times` is a string-keyed association list. -/

structure FileSnapshot where
  mtime : Option Nat
  validJson : Bool
deriving DecidableEq, Repr, Inhabited

/-- Dict assignment `d[k] = v` for string keys. -/
def dictInsert {β : Type} : List (String × β) → String → β → List (String × β)
  | [], k, v => [(k, v)]
  | (k', v') :: rest, k, v =>
    if k' = k then (k, v) :: rest else (k', v') :: dictInsert rest k v

/-- Dict deletion `del d[k]` (no-op when the key is absent, as the source
guards the delete with a membership test). -/
def dictErase {β : Type} : List (String × β) → String → List (String × β)
  | [], _ => []
  | (k', v') :: rest, k =>
    if k' = k then rest else (k', v') :: dictErase rest k

namespace ConfigWatcher

/-- Body of the per-file loop of `_check_for_changes`: a stat failure drops
the bookkeeping entry; a new path is reported unconditionally; a strictly
newer timestamp is reported only when the content still parses as JSON; in
every stat-successful case the observed timestamp is recorded. -/
def checkStep (acc : List String × List (String × Nat)) (entry : String × FileSnapshot) :
    List String × List (String × Nat) :=
  let (changed, times) := acc
  let (path, snap) := entry
  match snap.mtime with
  | none => (changed, dictErase times path)
  | some m =>
    let changed1 :=
      match dictLookup times path with
      | none => changed ++ [path]
      | some t =>
        if m > t then (if snap.validJson then changed ++ [path] else changed) else changed
    (changed1, dictInsert times path m)

/-- Models `ConfigWatcher._check_for_changes`: fold the loop body over the
directory listing, starting from an empty changed set and the recorded
times; returns the changed set (as a list, used only through membership and
count) and the updated times. -/
def check_for_changes (times : List (String × Nat)) (dir : List (String × FileSnapshot)) :
    List String × List (String × Nat) :=
  dir.foldl checkStep ([], times)

/-- Models `ConfigWatcher._update_file_times`: record the stat-successful
modification times (stat errors pass). -/
def update_file_times (times : List (String × Nat)) (dir : List (String × FileSnapshot)) :
    List (String × Nat) :=
  dir.foldl (fun ts entry =>
    match entry.2.mtime with
    | none => ts
    | some m => dictInsert ts entry.1 m) times

/-- One poll cycle of `_watch_loop`, restricted to its observable callback
behaviour: when the changed set is nonempty, every registered callback
(identified by an id) is invoked exactly once with the full changed set. -/
def watch_cycle_invocations (callbacks : List Nat) (changed : List String) :
    List (Nat × List String) :=
  if changed.isEmpty then [] else callbacks.map (fun c => (c, changed))

end ConfigWatcher

/-! ## Dict lemmas for the watcher -/

theorem dictLookup_dictInsert {β : Type} (l : List (String × β)) (k : String) (v : β)
    (k' : String) :
    dictLookup (dictInsert l k v) k' = if k' = k then some v else dictLookup l k' := by
  induction l with
  | nil =>
    by_cases hk : k' = k
    · simp [dictInsert, dictLookup, hk]
    · simp [dictInsert, dictLookup, hk, Ne.symm hk]
  | cons q rest ih =>
    obtain ⟨g, w⟩ := q
    by_cases hgk : g = k
    · subst hgk
      by_cases hk : k' = g
      · subst hk; simp [dictInsert, dictLookup]
      · simp [dictInsert, dictLookup, hk, Ne.symm hk]
    · by_cases hgk' : g = k'
      · subst hgk'
        simp [dictInsert, dictLookup, hgk]
      · simp [dictInsert, dictLookup, hgk, hgk', ih]

theorem dictLookup_dictErase_ne {β : Type} (l : List (String × β)) (k k' : String)
    (h : k' ≠ k) :
    dictLookup (dictErase l k) k' = dictLookup l k' := by
  induction l with
  | nil => rfl
  | cons q rest ih =>
    obtain ⟨g, w⟩ := q
    by_cases hgk : g = k
    · subst hgk
      simp [dictErase, dictLookup, Ne.symm h]
    · by_cases hgk' : g = k'
      · subst hgk'
        simp [dictErase, dictLookup, hgk]
      · simp [dictErase, dictLookup, hgk, hgk', ih]

namespace ConfigWatcher

/-- A checked file other than `f` neither adds `f` to the changed set nor
touches `f`'s recorded time. -/
theorem checkStep_other (acc : List String × List (String × Nat))
    (g : String) (gsnap : FileSnapshot) (f : String) (hgf : g ≠ f) :
    (checkStep acc (g, gsnap)).1.count f = acc.1.count f
    ∧ dictLookup (checkStep acc (g, gsnap)).2 f = dictLookup acc.2 f := by
  obtain ⟨ch, ts⟩ := acc
  unfold checkStep
  dsimp only
  cases hm : gsnap.mtime with
  | none =>
    exact ⟨rfl, dictLookup_dictErase_ne ts g f (Ne.symm hgf)⟩
  | some m =>
    constructor
    · cases hl : dictLookup ts g with
      | none => simp [List.count_append, List.count_singleton, hgf]
      | some t =>
        by_cases hmt : m > t
        · by_cases hv : gsnap.validJson
          · simp [hmt, hv, List.count_append, List.count_singleton, hgf]
          · simp [hmt, hv]
        · simp [hmt]
    · rw [dictLookup_dictInsert, if_neg (Ne.symm hgf)]

/-- Checking file `f` itself: the changed set gains `f` exactly when `f` is
new or strictly newer and valid; the observed timestamp is recorded. -/
theorem checkStep_hit (acc : List String × List (String × Nat))
    (f : String) (snap : FileSnapshot) (m : Nat) (hm : snap.mtime = some m) :
    (checkStep acc (f, snap)).1.count f
      = acc.1.count f + (match dictLookup acc.2 f with
          | none => 1
          | some t => if m > t ∧ snap.validJson = true then 1 else 0)
    ∧ dictLookup (checkStep acc (f, snap)).2 f = some m := by
  obtain ⟨ch, ts⟩ := acc
  unfold checkStep
  dsimp only
  rw [hm]
  constructor
  · cases hl : dictLookup ts f with
    | none => simp [List.count_append, List.count_singleton]
    | some t =>
      by_cases hmt : m > t
      · by_cases hv : snap.validJson = true
        · simp [hmt, hv, List.count_append, List.count_singleton]
        · simp [hmt, hv]
      · simp [hmt, fun (hc : m > t ∧ snap.validJson = true) => hmt hc.1]
  · rw [dictLookup_dictInsert, if_pos rfl]

/-- Frame property: folding the check over files none of which is `f`
changes neither `f`'s count in the changed set nor `f`'s recorded time. -/
theorem check_frame (f : String) :
    ∀ (dir : List (String × FileSnapshot)) (acc : List String × List (String × Nat)),
    f ∉ dir.map Prod.fst →
    (dir.foldl checkStep acc).1.count f = acc.1.count f
    ∧ dictLookup (dir.foldl checkStep acc).2 f = dictLookup acc.2 f := by
  intro dir
  induction dir with
  | nil => intro acc _; exact ⟨rfl, rfl⟩
  | cons e rest ih =>
    intro acc hnot
    obtain ⟨g, gsnap⟩ := e
    have hgf : g ≠ f := by
      intro hh
      exact hnot (by simp [hh])
    have hrest : f ∉ rest.map Prod.fst := by
      intro hh
      exact hnot (by simp [hh])
    have hstep := checkStep_other acc g gsnap f hgf
    have hfold := ih (checkStep acc (g, gsnap)) hrest
    exact ⟨hfold.1.trans hstep.1, hfold.2.trans hstep.2⟩

/-- Pointwise characterization of one `_check_for_changes` cycle at a
stat-successful file `f` occurring in a duplicate-free directory listing. -/
theorem check_hit (f : String) (snap : FileSnapshot) (m : Nat) (hm : snap.mtime = some m) :
    ∀ (dir : List (String × FileSnapshot)) (acc : List String × List (String × Nat)),
    (dir.map Prod.fst).Nodup → (f, snap) ∈ dir →
    (dir.foldl checkStep acc).1.count f
      = acc.1.count f + (match dictLookup acc.2 f with
          | none => 1
          | some t => if m > t ∧ snap.validJson = true then 1 else 0)
    ∧ dictLookup (dir.foldl checkStep acc).2 f = some m := by
  intro dir
  induction dir with
  | nil => intro acc _ hmem; simp at hmem
  | cons e rest ih =>
    intro acc hnd hmem
    obtain ⟨g, gsnap⟩ := e
    rw [List.map_cons] at hnd
    obtain ⟨hghead, hnd2⟩ := List.nodup_cons.mp hnd
    rcases List.mem_cons.mp hmem with he | he
    · have hg : g = f := (Prod.mk.inj he.symm).1
      have hgsnap : gsnap = snap := (Prod.mk.inj he.symm).2
      rw [hg] at hghead
      rw [hg, hgsnap]
      have hstep := checkStep_hit acc f snap m hm
      have hfold := check_frame f rest (checkStep acc (f, snap)) hghead
      exact ⟨hfold.1.trans hstep.1, hfold.2.trans hstep.2⟩
    · have hfrest : f ∈ rest.map Prod.fst :=
        List.mem_map.mpr ⟨(f, snap), he, rfl⟩
      have hgf : g ≠ f := by
        intro hh
        subst hh
        exact hghead hfrest
      have hstep := checkStep_other acc g gsnap f hgf
      have hfold := ih (checkStep acc (g, gsnap)) hnd2 he
      constructor
      · rw [List.foldl_cons, hfold.1, hstep.1, hstep.2]
      · rw [List.foldl_cons]
        exact hfold.2

end ConfigWatcher

/-- C7: for a tracked file `f` recorded at time `t0`, a cycle that observes
`f` with a strictly newer timestamp `t1` but invalid JSON does not report
`f` (so no callback invocation mentions it) yet records `t1`; the next cycle
observing `f` with valid JSON at a strictly newer `t2` reports `f` exactly
once — every callback receives it exactly once — and records `t2`. -/
theorem C7_invalid_then_valid_reload
    (times : List (String × Nat)) (dir1 dir2 : List (String × FileSnapshot))
    (f : String) (t0 t1 t2 : Nat) (callbacks : List Nat)
    (h0 : dictLookup times f = some t0)
    (hnd1 : (dir1.map Prod.fst).Nodup)
    (hm1 : (f, { mtime := some t1, validJson := false }) ∈ dir1)
    (h01 : t0 < t1)
    (hnd2 : (dir2.map Prod.fst).Nodup)
    (hm2 : (f, { mtime := some t2, validJson := true }) ∈ dir2)
    (h12 : t1 < t2) :
    f ∉ (ConfigWatcher.check_for_changes times dir1).1
    ∧ dictLookup (ConfigWatcher.check_for_changes times dir1).2 f = some t1
    ∧ (ConfigWatcher.check_for_changes
        (ConfigWatcher.check_for_changes times dir1).2 dir2).1.count f = 1
    ∧ dictLookup (ConfigWatcher.check_for_changes
        (ConfigWatcher.check_for_changes times dir1).2 dir2).2 f = some t2
    ∧ (∀ inv ∈ ConfigWatcher.watch_cycle_invocations callbacks
          (ConfigWatcher.check_for_changes times dir1).1, f ∉ inv.2)
    ∧ (∀ inv ∈ ConfigWatcher.watch_cycle_invocations callbacks
          (ConfigWatcher.check_for_changes
            (ConfigWatcher.check_for_changes times dir1).2 dir2).1, inv.2.count f = 1) := by
  have h1 := ConfigWatcher.check_hit f { mtime := some t1, validJson := false } t1 rfl
    dir1 ([], times) hnd1 hm1
  have hcount1 : (ConfigWatcher.check_for_changes times dir1).1.count f = 0 := by
    have := h1.1
    rw [h0] at this
    simpa [ConfigWatcher.check_for_changes] using this
  have hnotmem : f ∉ (ConfigWatcher.check_for_changes times dir1).1 :=
    List.count_eq_zero.mp hcount1
  have htime1 : dictLookup (ConfigWatcher.check_for_changes times dir1).2 f = some t1 := h1.2
  have h2 := ConfigWatcher.check_hit f { mtime := some t2, validJson := true } t2 rfl
    dir2 ([], (ConfigWatcher.check_for_changes times dir1).2) hnd2 hm2
  have hcount2 : (ConfigWatcher.check_for_changes
      (ConfigWatcher.check_for_changes times dir1).2 dir2).1.count f = 1 := by
    have := h2.1
    rw [htime1] at this
    simpa [ConfigWatcher.check_for_changes, h12] using this
  refine ⟨hnotmem, htime1, hcount2, h2.2, ?_, ?_⟩
  · intro inv hinv
    unfold ConfigWatcher.watch_cycle_invocations at hinv
    split at hinv
    · simp at hinv
    · obtain ⟨c, _, hce⟩ := List.mem_map.mp hinv
      rw [← hce]
      exact hnotmem
  · intro inv hinv
    unfold ConfigWatcher.watch_cycle_invocations at hinv
    split at hinv
    · simp at hinv
    · obtain ⟨c, _, hce⟩ := List.mem_map.mp hinv
      rw [← hce]
      exact hcount2

/-- C7 witness: one file `"a.json"` recorded at time 1, written invalidly at
time 2, then validly at time 3, with one registered callback. -/
theorem C7_invalid_then_valid_reload_witness :
    "a.json" ∉ (ConfigWatcher.check_for_changes [("a.json", 1)]
        [("a.json", { mtime := some 2, validJson := false })]).1
    ∧ dictLookup (ConfigWatcher.check_for_changes [("a.json", 1)]
        [("a.json", { mtime := some 2, validJson := false })]).2 "a.json" = some 2
    ∧ (ConfigWatcher.check_for_changes
        (ConfigWatcher.check_for_changes [("a.json", 1)]
          [("a.json", { mtime := some 2, validJson := false })]).2
        [("a.json", { mtime := some 3, validJson := true })]).1.count "a.json" = 1 := by
  have h := C7_invalid_then_valid_reload [("a.json", 1)]
    [("a.json", { mtime := some 2, validJson := false })]
    [("a.json", { mtime := some 3, validJson := true })]
    "a.json" 1 2 3 [0]
    (by decide) (by decide) (by decide) (by decide) (by decide) (by decide) (by decide)
  exact ⟨h.1, h.2.1, h.2.2.1⟩

/-- C9: a JSON file absent from the recorded-timestamp map is reported as
changed on the next cycle regardless of its content validity — callbacks
fire even when the newly appearing file is not valid JSON — and its
timestamp is recorded. -/
theorem C9_new_file_reported_without_validity_check
    (times : List (String × Nat)) (dir : List (String × FileSnapshot))
    (f : String) (m : Nat) (valid : Bool) (callbacks : List Nat)
    (h0 : dictLookup times f = none)
    (hnd : (dir.map Prod.fst).Nodup)
    (hmem : (f, { mtime := some m, validJson := valid }) ∈ dir) :
    (ConfigWatcher.check_for_changes times dir).1.count f = 1
    ∧ f ∈ (ConfigWatcher.check_for_changes times dir).1
    ∧ dictLookup (ConfigWatcher.check_for_changes times dir).2 f = some m
    ∧ (∀ inv ∈ ConfigWatcher.watch_cycle_invocations callbacks
          (ConfigWatcher.check_for_changes times dir).1, inv.2.count f = 1) := by
  have h := ConfigWatcher.check_hit f { mtime := some m, validJson := valid } m rfl
    dir ([], times) hnd hmem
  have hcount : (ConfigWatcher.check_for_changes times dir).1.count f = 1 := by
    have := h.1
    rw [h0] at this
    simpa [ConfigWatcher.check_for_changes] using this
  refine ⟨hcount, ?_, h.2, ?_⟩
  · exact List.count_pos_iff.mp (by rw [hcount]; exact Nat.one_pos)
  · intro inv hinv
    unfold ConfigWatcher.watch_cycle_invocations at hinv
    split at hinv
    · simp at hinv
    · obtain ⟨c, _, hce⟩ := List.mem_map.mp hinv
      rw [← hce]
      exact hcount

/-- C9 witness: a file `"b.json"` that is not in the recorded map and whose
content is invalid JSON is still reported, and its time is recorded. -/
theorem C9_new_file_reported_without_validity_check_witness :
    (ConfigWatcher.check_for_changes [("a.json", 1)]
        [("a.json", { mtime := some 1, validJson := true }),
         ("b.json", { mtime := some 7, validJson := false })]).1.count "b.json" = 1
    ∧ dictLookup (ConfigWatcher.check_for_changes [("a.json", 1)]
        [("a.json", { mtime := some 1, validJson := true }),
         ("b.json", { mtime := some 7, validJson := false })]).2 "b.json" = some 7 := by
  have h := C9_new_file_reported_without_validity_check [("a.json", 1)]
    [("a.json", { mtime := some 1, validJson := true }),
     ("b.json", { mtime := some 7, validJson := false })]
    "b.json" 7 false [0] (by decide) (by decide) (by decide)
  exact ⟨h.1, h.2.2.1⟩

/-! ## Command executor (`src/command_executor.py`)

External effects are an oracle `Env`: `shell` gives the exit code
`subprocess.run(cmd, shell=True)` would produce for a given command line
(stdout/stderr are only printed by the source, never branched on beyond the
exit code), and `httpGet` tells whether `urllib.request.urlopen(url)`
succeeds (`false` = `URLError` or any other exception, which the source
catches and converts to `False`).  The host identity data gathered once at
startup by `_get_local_hostnames` comes from a `HostEnv` oracle. -/

structure Env where
  shell : String → Int
  httpGet : String → Bool

/-- Startup host information: `socket.gethostname()` (`none` if it raised),
the two `scutil` results (raw stdout, `none` if the call failed or returned
nonzero), and the bound interface addresses as the enumeration yields them
(already stripped of IPv6 interface suffixes, abstracting the
netifaces/getaddrinfo branches). -/
structure HostEnv where
  gethostname : Option String := none
  computerName : Option String := none
  localHostName : Option String := none
  addrs : List String := []
deriving DecidableEq, Repr, Inhabited

/-- Models `CommandExecutor._get_local_hostnames`: the base set
`{'localhost', '127.0.0.1', '::1'}`, the hostname and its short (first
dot-component) form — added unlowered — the scutil names stripped and
lowered, and all bound addresses.  The Python set is modelled as a list
used only through membership. -/
def getLocalHostnames (he : HostEnv) : List String :=
  ["localhost", "127.0.0.1", "::1"]
  ++ (match he.gethostname with
      | some h => [h, ⟨(splitOnChar '.' h.data).headD []⟩]
      | none => [])
  ++ (match he.computerName with
      | some s => [strToLower ⟨trimBoth s.data⟩]
      | none => [])
  ++ (match he.localHostName with
      | some s => [strToLower ⟨trimBoth s.data⟩]
      | none => [])
  ++ he.addrs

/-- A computer identity dict; the keys the executor reads. -/
structure ComputerConfig where
  hostname : Option String := none
  username : Option String := none
  betterTouchToolPort : Option Nat := none
  betterTouchToolSharedSecret : Option String := none
deriving DecidableEq, Repr, Inhabited

/-- The executor's only state relevant to dispatch: the precomputed
local-hostname set (`self._local_hostnames`). -/
structure CommandExecutor where
  localHostnames : List String
deriving DecidableEq, Repr, Inhabited

/-- Build an executor from the startup host environment, as `__init__` does. -/
def CommandExecutor.ofHostEnv (he : HostEnv) : CommandExecutor :=
  { localHostnames := getLocalHostnames he }

/-- The Python exception an `execute_action` call can let escape. -/
inductive PyExn where
  | attributeError
deriving DecidableEq, Repr

/-- Replace every occurrence of one character by a replacement string
(models Python `str.replace` for a single-character pattern). -/
def replaceChar (c : Char) (rep : List Char) (cs : List Char) : List Char :=
  cs.foldr (fun ch acc => if ch = c then rep ++ acc else ch :: acc) []

/-- The shell escaping `_execute_applescript` applies:
`script.replace('"', '\\"').replace('\n', '\\n')`. -/
def escapeApplescript (s : String) : String :=
  ⟨replaceChar '\n' ['\\', 'n'] (replaceChar '"' ['\\', '"'] s.data)⟩

/-- Uppercase hex digit. -/
def hexDigit (n : Nat) : Char :=
  if n < 10 then Char.ofNat (48 + n) else Char.ofNat (55 + n)

/-- UTF-8 bytes of a code point. -/
def utf8Bytes (n : Nat) : List Nat :=
  if n < 128 then [n]
  else if n < 2048 then [192 + n / 64, 128 + n % 64]
  else if n < 65536 then [224 + n / 4096, 128 + (n / 64) % 64, 128 + n % 64]
  else [240 + n / 262144, 128 + (n / 4096) % 64, 128 + (n / 64) % 64, 128 + n % 64]

/-- Percent-encoding of one character under `urllib.parse.quote`'s default
rules (unreserved characters and `/` kept, everything else encoded
bytewise). -/
def quoteChar (c : Char) : List Char :=
  if c.isAlphanum || c = '_' || c = '.' || c = '-' || c = '~' || c = '/' then [c]
  else (utf8Bytes c.toNat).foldr
    (fun b acc => '%' :: hexDigit (b / 16) :: hexDigit (b % 16) :: acc) []

/-- Models `urllib.parse.quote` with the default safe set. -/
def urlQuote (s : String) : String :=
  ⟨s.data.foldr (fun c acc => quoteChar c ++ acc) []⟩

namespace CommandExecutor

/-- Models `CommandExecutor._is_local_computer`: a missing (or empty) config is
local; otherwise the lowercased hostname is local when empty or when it is
a member of the precomputed set.  (An empty config dict is Python-falsy and
returns true on the first test; in this model it reaches the empty-hostname
test and returns true there, the same answer.) -/
def isLocalComputer (ex : CommandExecutor) (cfg : Option ComputerConfig) : Bool :=
  match cfg with
  | none => true
  | some c =>
    let hostname := strToLower (c.hostname.getD "")
    if hostname = "" then true
    else ex.localHostnames.contains hostname

/-- Models `CommandExecutor._execute_remote_command`: no hostname → `False`;
otherwise wrap the command in `ssh user@host '...'` and run it through the
shell. -/
def execute_remote_command (env : Env) (command : String) (cfg : ComputerConfig) : Bool :=
  let hostname := cfg.hostname
  let username := cfg.username.getD "ross"
  if ¬ optStrTruthy hostname then false
  else
    let ssh_command := "ssh " ++ username ++ "@" ++ hostname.getD "" ++ " \x27" ++ command ++ "\x27"
    env.shell ssh_command == 0

/-- Models `CommandExecutor._execute_btt_applescript`: missing hostname or shared
secret → `False`; otherwise a GET of the automation server's
execute-applescript endpoint (10s timeout), `True` exactly when the request
succeeds. -/
def execute_btt_applescript (env : Env) (script : String) (cfg : ComputerConfig) : Bool :=
  let hostname := cfg.hostname
  let port := cfg.betterTouchToolPort.getD 64873
  let shared_secret := cfg.betterTouchToolSharedSecret
  if !(optStrTruthy hostname) || !(optStrTruthy shared_secret) then false
  else
    let url := "http://" ++ hostname.getD "" ++ ":" ++ toString port ++
      "/execute_applescript/?script=" ++ urlQuote script ++ "&shared_secret=" ++
      shared_secret.getD ""
    env.httpGet url

/-- Models `CommandExecutor._execute_btt_trigger`: missing hostname or shared
secret → `False`; a missing trigger name makes `urllib.parse.quote(None)`
raise `TypeError`, which the blanket `except` converts to `False`;
otherwise a GET of the named-trigger endpoint (5s timeout). -/
def execute_btt_trigger (env : Env) (trigger_name : Option String) (cfg : ComputerConfig) : Bool :=
  let hostname := cfg.hostname
  let port := cfg.betterTouchToolPort.getD 64873
  let shared_secret := cfg.betterTouchToolSharedSecret
  if !(optStrTruthy hostname) || !(optStrTruthy shared_secret) then false
  else
    match trigger_name with
    | none => false
    | some t =>
      let url := "http://" ++ hostname.getD "" ++ ":" ++ toString port ++
        "/trigger_named/?trigger_name=" ++ urlQuote t ++ "&shared_secret=" ++
        shared_secret.getD ""
      env.httpGet url

/-- Models `CommandExecutor._execute_applescript`: falsy script → `False`; build
the `osascript` shell command; remote (non-empty computer key, config
present and not local) goes via the automation server when a shared secret
is configured and SSH otherwise; local runs the shell command and succeeds
exactly on exit code 0. -/
def execute_applescript (env : Env) (ex : CommandExecutor) (script : Option String)
    (computer : Option String) (cfg : Option ComputerConfig) : Bool :=
  if ¬ optStrTruthy script then false
  else
    let scr := script.getD ""
    let command := "osascript -e \"" ++ escapeApplescript scr ++ "\" 2>&1"
    if optStrTruthy computer && cfg.isSome && !(isLocalComputer ex cfg) then
      if optStrTruthy ((cfg.getD default).betterTouchToolSharedSecret) then
        execute_btt_applescript env scr (cfg.getD default)
      else
        execute_remote_command env command (cfg.getD default)
    else
      env.shell command == 0

/-- Models `CommandExecutor._execute_command`: falsy command → `False`; remote when
a non-empty computer key and a config are supplied and the config is not
local; otherwise run locally and succeed exactly on exit code 0. -/
def execute_command (env : Env) (ex : CommandExecutor) (command : Option String)
    (computer : Option String) (cfg : Option ComputerConfig) : Bool :=
  if ¬ optStrTruthy command then false
  else
    let cmd := command.getD ""
    if optStrTruthy computer && cfg.isSome && !(isLocalComputer ex cfg) then
      execute_remote_command env cmd (cfg.getD default)
    else
      env.shell cmd == 0

/-- Models `CommandExecutor._open_app`: falsy app name → `False`; otherwise rewrite
to an `open -a '...'` command. -/
def open_app (env : Env) (ex : CommandExecutor) (app_name : Option String)
    (computer : Option String) (cfg : Option ComputerConfig) : Bool :=
  if ¬ optStrTruthy app_name then false
  else execute_command env ex (some ("open -a \x27" ++ app_name.getD "" ++ "\x27")) computer cfg

/-- The literal `key_mapping` dict inside `_send_keystroke`. -/
def key_mapping : List (String × String) :=
  [("cmd", "command down"), ("ctrl", "control down"), ("alt", "option down"),
   ("shift", "shift down"), ("return", "return"), ("space", "space"), ("tab", "tab")]

/-- The literal `key_codes` dict inside `_send_keystroke`. -/
def key_codes : List (String × Nat) :=
  [("a", 0), ("s", 1), ("d", 2), ("f", 3), ("h", 4), ("g", 5), ("z", 6), ("x", 7),
   ("c", 8), ("v", 9), ("b", 11), ("q", 12), ("w", 13), ("e", 14), ("r", 15),
   ("y", 16), ("t", 17), ("1", 18), ("2", 19), ("3", 20), ("4", 21), ("6", 22),
   ("5", 23), ("=", 24), ("9", 25), ("7", 26), ("-", 27), ("8", 28), ("0", 29),
   ("]", 30), ("o", 31), ("u", 32), ("[", 33), ("i", 34), ("p", 35), ("l", 37),
   ("j", 38), ("\x27", 39), ("k", 40), (";", 41), ("\\", 42), (",", 43), ("/", 44),
   ("n", 45), ("m", 46), (".", 47), ("`", 50),
   ("space", 49), ("return", 36), ("tab", 48), ("delete", 51), ("escape", 53)]

/-- Models `CommandExecutor._send_keystroke` (legacy `keys` list format): empty list
or empty main key → `False`; otherwise build one AppleScript line (single
character → `keystroke`, known multi-character key → `key code`, unknown →
`keystroke` fallback) and execute it. -/
def send_keystroke (env : Env) (ex : CommandExecutor) (keys : List String)
    (computer : Option String) (cfg : Option ComputerConfig) : Bool :=
  if keys = [] then false
  else
    let main_key := keys.getLastD ""
    let modifiers := if keys.length > 1 then keys.dropLast else []
    if main_key = "" then false
    else
      let using_clause :=
        if modifiers ≠ [] then
          " using \x7b" ++ String.intercalate ", "
            (modifiers.map (fun m => (dictLookup key_mapping m).getD (m ++ " down"))) ++ "\x7d"
        else ""
      let script :=
        if main_key.length = 1 then
          "tell application \"System Events\" to keystroke \"" ++ main_key ++ "\"" ++ using_clause
        else
          match dictLookup key_codes (strToLower main_key) with
          | some kc =>
            "tell application \"System Events\" to key code " ++ toString kc ++ using_clause
          | none =>
            "tell application \"System Events\" to keystroke \"" ++ main_key ++ "\"" ++ using_clause
      execute_applescript env ex (some script) computer cfg

/-- The keystroke loop of `_send_keystroke_from_shortcut`: execute each
action's script in order, aborting on the first failure, with an ignored
`delay 0.1` call between consecutive keystrokes; actions whose script is
empty are skipped. -/
def run_keystroke_actions (env : Env) (ex : CommandExecutor) :
    List KeyboardShortcutParser.KeystrokeAction →
    Option String → Option ComputerConfig → Bool
  | [], _, _ => true
  | a :: rest, computer, cfg =>
    let script := KeyboardShortcutParser.to_applescript a
    if script ≠ "" then
      if execute_applescript env ex (some script) computer cfg then
        if rest ≠ [] then
          let _ := execute_applescript env ex (some "delay 0.1") computer cfg
          run_keystroke_actions env ex rest computer cfg
        else true
      else false
    else run_keystroke_actions env ex rest computer cfg

/-- Models `CommandExecutor._send_keystroke_from_shortcut`: falsy shortcut or a
parse with no events → `False`; otherwise run the events in order. -/
def send_keystroke_from_shortcut (env : Env) (ex : CommandExecutor)
    (shortcut : Option String) (computer : Option String)
    (cfg : Option ComputerConfig) : Bool :=
  if ¬ optStrTruthy shortcut then false
  else
    let actions := KeyboardShortcutParser.parse (shortcut.getD "")
    if actions = [] then false
    else run_keystroke_actions env ex actions computer cfg

/-- The combined activate+delay+keys script `_send_app_shortcut` builds for
the remote automation-server path; keys that are multi-character and in no
code table are silently skipped, and the result is right-stripped. -/
def build_combined_script (app_name shortcut : String) : String :=
  let base := "tell application \"" ++ app_name ++ "\" to activate\n" ++ "delay 0.2\n"
  let actions := KeyboardShortcutParser.parse shortcut
  let lines := actions.foldl (fun acc action =>
    let key := action.key
    let modifiers := action.modifiers
    let using_clause :=
      if modifiers ≠ [] then
        " using \x7b" ++ String.intercalate ", "
          (modifiers.map (fun m =>
            (dictLookup KeyboardShortcutParser.MODIFIERS m).getD (m ++ " down"))) ++ "\x7d"
      else ""
    match dictLookup KeyboardShortcutParser.SPECIAL_KEYS key with
    | some kc =>
      acc ++ "tell application \"System Events\" to key code " ++ toString kc ++
        using_clause ++ "\n"
    | none =>
      match dictLookup KeyboardShortcutParser.KEY_CODES key with
      | some kc =>
        acc ++ "tell application \"System Events\" to key code " ++ toString kc ++
          using_clause ++ "\n"
      | none =>
        if key.length = 1 then
          acc ++ "tell application \"System Events\" to keystroke \"" ++ key ++ "\"" ++
            using_clause ++ "\n"
        else acc) base
  ⟨trimRight lines.data⟩

/-- Models `CommandExecutor._send_app_shortcut`: falsy app or shortcut → `False`;
remote with a configured shared secret sends the single combined script;
otherwise activate the app, wait (result ignored), then send the shortcut,
aborting if activation fails. -/
def send_app_shortcut (env : Env) (ex : CommandExecutor)
    (app_name shortcut : Option String) (computer : Option String)
    (cfg : Option ComputerConfig) : Bool :=
  if ¬ optStrTruthy app_name || ¬ optStrTruthy shortcut then false
  else
    let app := app_name.getD ""
    let sc := shortcut.getD ""
    if optStrTruthy computer && cfg.isSome && !(isLocalComputer ex cfg)
        && optStrTruthy ((cfg.getD default).betterTouchToolSharedSecret) then
      execute_applescript env ex (some (build_combined_script app sc)) computer cfg
    else
      if execute_applescript env ex
          (some ("tell application \"" ++ app ++ "\" to activate")) computer cfg then
        let _ := execute_applescript env ex (some "delay 0.2") computer cfg
        send_keystroke_from_shortcut env ex (some sc) computer cfg
      else false

/-- Models `CommandExecutor.execute_action`: dispatch on the `type` key.  A falsy
action returns `False`; unknown types return `False`.  The `btt_trigger`
branch calls `_execute_btt_trigger(trigger_name, computer_config)`, whose
body immediately evaluates `computer_config.get("hostname")` outside any
`try` block — with no `computer_config` supplied this is
`None.get(...)`, an `AttributeError` that escapes `execute_action`. -/
def execute_action (env : Env) (ex : CommandExecutor) (action : Option ActionD)
    (computer : Option String) (cfg : Option ComputerConfig) : Except PyExn Bool :=
  match action with
  | none => .ok false
  | some a =>
    if a.actionType = some "command" then
      .ok (execute_command env ex a.command computer cfg)
    else if a.actionType = some "app" then
      .ok (open_app env ex a.app computer cfg)
    else if a.actionType = some "applescript" then
      .ok (execute_applescript env ex a.script computer cfg)
    else if a.actionType = some "keystroke" then
      if a.command.isSome then
        if optStrTruthy a.application && a.application ≠ some "global" then
          .ok (send_app_shortcut env ex a.application a.command computer cfg)
        else
          .ok (send_keystroke_from_shortcut env ex a.command computer cfg)
      else if a.shortcut.isSome then
        .ok (send_keystroke_from_shortcut env ex a.shortcut computer cfg)
      else
        .ok (send_keystroke env ex (a.keys.getD []) computer cfg)
    else if a.actionType = some "app_shortcut" then
      .ok (send_app_shortcut env ex a.app a.shortcut computer cfg)
    else if a.actionType = some "btt_trigger" then
      match cfg with
      | none => .error PyExn.attributeError
      | some c => .ok (execute_btt_trigger env a.trigger_name c)
    else .ok false

end CommandExecutor

/-- A fixed trivial oracle: every shell command exits 0, every HTTP request
succeeds.  Used to instantiate witness statements. -/
def zeroEnv : Env := { shell := fun _ => 0, httpGet := fun _ => true }

/-- C1: evaluation of the router at the failing input.  A `btt_trigger`
action dispatched with no computer config raises `AttributeError` past the
`execute_action` boundary (first conjunct) — the claim's "returns false,
never raises" is violated there — while the other cases the claim lists do
return `false`: an unrecognized action type, a command action with a missing
or an empty command string, a keystroke action with an empty shortcut
string, and a `btt_trigger` action whose config lacks the shared secret. -/
theorem C1_btt_trigger_none_config_raises :
    (∀ (env : Env) (ex : CommandExecutor) (computer : Option String) (trigger : Option String),
      CommandExecutor.execute_action env ex
        (some { actionType := some "btt_trigger", trigger_name := trigger })
        computer none = .error PyExn.attributeError)
    ∧ (∀ (env : Env) (ex : CommandExecutor) (computer : Option String)
        (cfg : Option ComputerConfig),
      CommandExecutor.execute_action env ex (some { actionType := some "frobnicate" })
        computer cfg = .ok false)
    ∧ (∀ (env : Env) (ex : CommandExecutor) (computer : Option String)
        (cfg : Option ComputerConfig),
      CommandExecutor.execute_action env ex (some { actionType := some "command" })
        computer cfg = .ok false)
    ∧ (∀ (env : Env) (ex : CommandExecutor) (computer : Option String)
        (cfg : Option ComputerConfig),
      CommandExecutor.execute_action env ex
        (some { actionType := some "command", command := some "" }) computer cfg = .ok false)
    ∧ (∀ (env : Env) (ex : CommandExecutor) (computer : Option String)
        (cfg : Option ComputerConfig),
      CommandExecutor.execute_action env ex
        (some { actionType := some "keystroke", shortcut := some "" }) computer cfg = .ok false)
    ∧ (∀ (env : Env) (ex : CommandExecutor) (computer : Option String) (trigger : Option String),
      CommandExecutor.execute_action env ex
        (some { actionType := some "btt_trigger", trigger_name := trigger })
        computer (some { hostname := some "desk.local" }) = .ok false) := by
  refine ⟨fun env ex computer trigger => rfl, fun env ex computer cfg => rfl,
    fun env ex computer cfg => rfl, fun env ex computer cfg => rfl,
    fun env ex computer cfg => rfl, fun env ex computer trigger => ?_⟩
  cases trigger <;> rfl

/-- C8 (counterexample): `_get_local_hostnames` adds `socket.gethostname()`
to the local set without lowercasing, but `_is_local_computer` lowercases
the queried hostname before the membership test; so an identity whose
hostname is literally a member of the precomputed set — here the machine's
own mixed-case hostname — is reported as not local. -/
theorem C8_counterexample :
    "MyMac.local" ∈ (CommandExecutor.ofHostEnv { gethostname := some "MyMac.local" }).localHostnames
    ∧ CommandExecutor.isLocalComputer
        (CommandExecutor.ofHostEnv { gethostname := some "MyMac.local" })
        (some { hostname := some "MyMac.local" }) = false := by
  refine ⟨by decide, by decide⟩

/-- C8 (amended): `is_local(identity)` lowercases the identity's hostname and
returns true exactly when that lowercased hostname is empty or is a member
of the precomputed local-identity set (which always contains `localhost` and
the loopback addresses `127.0.0.1`, `::1`); in particular it is true for a
missing hostname and false for any hostname whose lowercased form matches no
set member.  Membership is tested on the lowercased hostname only, so a set
member containing uppercase characters is never matched. -/
theorem C8_is_local (ex : CommandExecutor) (cfg : ComputerConfig) :
    (CommandExecutor.isLocalComputer ex (some cfg) = true
      ↔ (strToLower (cfg.hostname.getD "") = ""
          ∨ strToLower (cfg.hostname.getD "") ∈ ex.localHostnames))
    ∧ (∀ he : HostEnv, "localhost" ∈ getLocalHostnames he
        ∧ "127.0.0.1" ∈ getLocalHostnames he ∧ "::1" ∈ getLocalHostnames he)
    ∧ (cfg.hostname = none → CommandExecutor.isLocalComputer ex (some cfg) = true)
    ∧ (∀ h : String, cfg.hostname = some h → strToLower h ≠ "" →
        strToLower h ∉ ex.localHostnames →
        CommandExecutor.isLocalComputer ex (some cfg) = false) := by
  refine ⟨?_, ?_, ?_, ?_⟩
  · simp only [CommandExecutor.isLocalComputer]
    by_cases he : strToLower (cfg.hostname.getD "") = ""
    · simp [he]
    · simp [he]
  · intro he
    refine ⟨?_, ?_, ?_⟩ <;> simp [getLocalHostnames]
  · intro hh
    simp only [CommandExecutor.isLocalComputer]
    rw [hh]
    rfl
  · intro h hh hne hnm
    simp only [CommandExecutor.isLocalComputer]
    rw [hh]
    simp only [Option.getD_some]
    rw [if_neg hne]
    simp [hnm]

/-- C8 witness: with the bare startup set, `"LOCALHOST"` (lowercased to a
set member) is local, a missing hostname is local, and an unmatched hostname
is not. -/
theorem C8_is_local_witness :
    CommandExecutor.isLocalComputer (CommandExecutor.ofHostEnv {})
        (some { hostname := some "LOCALHOST" }) = true
    ∧ CommandExecutor.isLocalComputer (CommandExecutor.ofHostEnv {})
        (some { hostname := none }) = true
    ∧ CommandExecutor.isLocalComputer (CommandExecutor.ofHostEnv {})
        (some { hostname := some "elsewhere.example" }) = false := by
  refine ⟨(C8_is_local (CommandExecutor.ofHostEnv {})
      { hostname := some "LOCALHOST" }).1.mpr (Or.inr (by decide)), ?_, ?_⟩
  · exact (C8_is_local (CommandExecutor.ofHostEnv {}) { hostname := none }).2.2.1 rfl
  · exact (C8_is_local (CommandExecutor.ofHostEnv {})
      { hostname := some "elsewhere.example" }).2.2.2 "elsewhere.example" rfl
      (by decide) (by decide)

namespace CommandExecutor

/-- Whenever the remote-branch condition of `_execute_command` is false (falsy
computer key, missing config, or local config), the command runs through the
local shell. -/
theorem execute_command_nonremote (env : Env) (ex : CommandExecutor) (cmd : String)
    (computer : Option String) (cfg : Option ComputerConfig)
    (hcond : (optStrTruthy computer && cfg.isSome && !(isLocalComputer ex cfg)) = false) :
    execute_command env ex (some cmd) computer cfg
      = (if cmd = "" then false else env.shell cmd == 0) := by
  by_cases hc : cmd = ""
  · simp [execute_command, optStrTruthy, hc]
  · simp only [execute_command]
    rw [hcond]
    simp [optStrTruthy, hc]

/-- Under the same non-remote condition, `_execute_command` never consults the
computer identity: it equals the fully local call. -/
theorem execute_command_nonremote_config (env : Env) (ex : CommandExecutor)
    (arg : Option String) (computer : Option String) (cfg : Option ComputerConfig)
    (hcond : (optStrTruthy computer && cfg.isSome && !(isLocalComputer ex cfg)) = false) :
    execute_command env ex arg computer cfg = execute_command env ex arg none none := by
  cases arg with
  | none => rfl
  | some cmd =>
    rw [execute_command_nonremote env ex cmd computer cfg hcond,
      execute_command_nonremote env ex cmd none none rfl]

/-- Under the non-remote condition, `_execute_applescript` never consults the
computer identity: it equals the fully local call. -/
theorem execute_applescript_nonremote_config (env : Env) (ex : CommandExecutor)
    (computer : Option String) (cfg : Option ComputerConfig)
    (hcond : (optStrTruthy computer && cfg.isSome && !(isLocalComputer ex cfg)) = false) :
    ∀ s : Option String,
      execute_applescript env ex s computer cfg = execute_applescript env ex s none none := by
  intro s
  simp only [execute_applescript]
  rw [hcond]
  rfl

/-- Under the non-remote condition, `_execute_applescript` runs the escaped
`osascript` command through the local shell. -/
theorem execute_applescript_nonremote_shell (env : Env) (ex : CommandExecutor)
    (scr : String) (computer : Option String) (cfg : Option ComputerConfig)
    (hcond : (optStrTruthy computer && cfg.isSome && !(isLocalComputer ex cfg)) = false) :
    execute_applescript env ex (some scr) computer cfg
      = (if scr = "" then false
         else env.shell ("osascript -e \"" ++ escapeApplescript scr ++ "\" 2>&1") == 0) := by
  by_cases hs : scr = ""
  · simp [execute_applescript, optStrTruthy, hs]
  · simp only [execute_applescript]
    rw [hcond]
    simp [optStrTruthy, hs]

/-- Under the non-remote condition, every AppleScript execution in the
keystroke loop takes the local branch, so the loop is insensitive to the
computer identity. -/
theorem run_keystroke_actions_local (env : Env) (ex : CommandExecutor)
    (computer : Option String) (cfg : Option ComputerConfig)
    (hcond : (optStrTruthy computer && cfg.isSome && !(isLocalComputer ex cfg)) = false) :
    ∀ l : List KeyboardShortcutParser.KeystrokeAction,
      run_keystroke_actions env ex l computer cfg
        = run_keystroke_actions env ex l none none := by
  have happ := execute_applescript_nonremote_config env ex computer cfg hcond
  intro l
  induction l with
  | nil => rfl
  | cons a rest ih =>
    simp only [run_keystroke_actions]
    rw [happ, ih]

/-- Under the non-remote condition, `_send_keystroke_from_shortcut` never
consults the computer identity: it equals the fully local call. -/
theorem send_keystroke_from_shortcut_nonremote_config (env : Env) (ex : CommandExecutor)
    (arg : Option String) (computer : Option String) (cfg : Option ComputerConfig)
    (hcond : (optStrTruthy computer && cfg.isSome && !(isLocalComputer ex cfg)) = false) :
    send_keystroke_from_shortcut env ex arg computer cfg
      = send_keystroke_from_shortcut env ex arg none none := by
  simp only [send_keystroke_from_shortcut]
  rw [run_keystroke_actions_local env ex computer cfg hcond]

/-- Under the non-remote condition, `_open_app` never consults the computer
identity: it equals the fully local call. -/
theorem open_app_nonremote_config (env : Env) (ex : CommandExecutor)
    (arg : Option String) (computer : Option String) (cfg : Option ComputerConfig)
    (hcond : (optStrTruthy computer && cfg.isSome && !(isLocalComputer ex cfg)) = false) :
    open_app env ex arg computer cfg = open_app env ex arg none none := by
  cases arg with
  | none => rfl
  | some app =>
    by_cases ha : app = ""
    · subst ha; rfl
    · have htr : optStrTruthy (some app) = true := by simp [optStrTruthy, ha]
      simp only [open_app, htr]
      simp only [not_true, if_false]
      exact execute_command_nonremote_config env ex _ computer cfg hcond

end CommandExecutor

/-- C10: `_is_local_computer(None)` is true; with a falsy computer key the
command, app, applescript and keystroke paths all equal the fully local call
(the computer config is never consulted); more generally, whenever the
computer key is falsy, the config is missing, or the config is local — the
negation of "a non-empty computer key and a non-local config are both
supplied" — the app, applescript and keystroke paths equal the fully local
call, `_execute_command` runs the command through the local shell, and
`_execute_applescript` runs the escaped `osascript` command through the
local shell; `_execute_command` takes the SSH remote branch exactly when a
non-empty computer key and a non-local config are both supplied; and
`execute_action` routes a command action to `_execute_command` unchanged. -/
theorem C10_local_dispatch :
    (∀ ex : CommandExecutor, CommandExecutor.isLocalComputer ex none = true)
    ∧ (∀ (env : Env) (ex : CommandExecutor) (arg : Option String)
        (computer : Option String) (cfg : Option ComputerConfig),
        optStrTruthy computer = false →
        CommandExecutor.execute_command env ex arg computer cfg
            = CommandExecutor.execute_command env ex arg none none
        ∧ CommandExecutor.open_app env ex arg computer cfg
            = CommandExecutor.open_app env ex arg none none
        ∧ CommandExecutor.execute_applescript env ex arg computer cfg
            = CommandExecutor.execute_applescript env ex arg none none
        ∧ CommandExecutor.send_keystroke_from_shortcut env ex arg computer cfg
            = CommandExecutor.send_keystroke_from_shortcut env ex arg none none)
    ∧ (∀ (env : Env) (ex : CommandExecutor) (cmd : String) (computer : Option String)
        (cfg : Option ComputerConfig),
        (optStrTruthy computer = false ∨ cfg = none
          ∨ CommandExecutor.isLocalComputer ex cfg = true) →
        CommandExecutor.execute_command env ex (some cmd) computer cfg
          = (if cmd = "" then false else env.shell cmd == 0))
    ∧ (∀ (env : Env) (ex : CommandExecutor) (cmd c : String) (conf : ComputerConfig),
        c ≠ "" → cmd ≠ "" → CommandExecutor.isLocalComputer ex (some conf) = false →
        CommandExecutor.execute_command env ex (some cmd) (some c) (some conf)
          = CommandExecutor.execute_remote_command env cmd conf)
    ∧ (∀ (env : Env) (ex : CommandExecutor) (a : ActionD) (computer : Option String)
        (cfg : Option ComputerConfig), a.actionType = some "command" →
        CommandExecutor.execute_action env ex (some a) computer cfg
          = .ok (CommandExecutor.execute_command env ex a.command computer cfg))
    ∧ (∀ (env : Env) (ex : CommandExecutor) (arg : Option String)
        (computer : Option String) (cfg : Option ComputerConfig),
        (optStrTruthy computer = false ∨ cfg = none
          ∨ CommandExecutor.isLocalComputer ex cfg = true) →
        CommandExecutor.open_app env ex arg computer cfg
            = CommandExecutor.open_app env ex arg none none
        ∧ CommandExecutor.execute_applescript env ex arg computer cfg
            = CommandExecutor.execute_applescript env ex arg none none
        ∧ CommandExecutor.send_keystroke_from_shortcut env ex arg computer cfg
            = CommandExecutor.send_keystroke_from_shortcut env ex arg none none)
    ∧ (∀ (env : Env) (ex : CommandExecutor) (scr : String) (computer : Option String)
        (cfg : Option ComputerConfig),
        (optStrTruthy computer = false ∨ cfg = none
          ∨ CommandExecutor.isLocalComputer ex cfg = true) →
        CommandExecutor.execute_applescript env ex (some scr) computer cfg
          = (if scr = "" then false
             else env.shell ("osascript -e \"" ++ escapeApplescript scr ++ "\" 2>&1") == 0)) := by
  refine ⟨fun ex => rfl, ?_, ?_, ?_, ?_, ?_, ?_⟩
  · intro env ex arg computer cfg hcomp
    have hcond : (optStrTruthy computer && cfg.isSome
        && !(CommandExecutor.isLocalComputer ex cfg)) = false := by simp [hcomp]
    exact ⟨CommandExecutor.execute_command_nonremote_config env ex arg computer cfg hcond,
      CommandExecutor.open_app_nonremote_config env ex arg computer cfg hcond,
      CommandExecutor.execute_applescript_nonremote_config env ex computer cfg hcond arg,
      CommandExecutor.send_keystroke_from_shortcut_nonremote_config env ex arg computer cfg hcond⟩
  · intro env ex cmd computer cfg hloc
    have hcond : (optStrTruthy computer && cfg.isSome
        && !(CommandExecutor.isLocalComputer ex cfg)) = false := by
      rcases hloc with h | h | h <;> simp [h]
    exact CommandExecutor.execute_command_nonremote env ex cmd computer cfg hcond
  · intro env ex cmd c conf hc hcmd hloc
    simp [CommandExecutor.execute_command, optStrTruthy, hc, hcmd, hloc]
  · intro env ex a computer cfg ha
    simp [CommandExecutor.execute_action, ha]
  · intro env ex arg computer cfg hloc
    have hcond : (optStrTruthy computer && cfg.isSome
        && !(CommandExecutor.isLocalComputer ex cfg)) = false := by
      rcases hloc with h | h | h <;> simp [h]
    exact ⟨CommandExecutor.open_app_nonremote_config env ex arg computer cfg hcond,
      CommandExecutor.execute_applescript_nonremote_config env ex computer cfg hcond arg,
      CommandExecutor.send_keystroke_from_shortcut_nonremote_config env ex arg computer cfg hcond⟩
  · intro env ex scr computer cfg hloc
    have hcond : (optStrTruthy computer && cfg.isSome
        && !(CommandExecutor.isLocalComputer ex cfg)) = false := by
      rcases hloc with h | h | h <;> simp [h]
    exact CommandExecutor.execute_applescript_nonremote_shell env ex scr computer cfg hcond

/-- C10 witness: concrete instances of `C10_local_dispatch` — an empty
computer key ignores a remote config; a missing key runs a command locally;
a non-empty key with a non-local config goes remote; a command action
dispatches to `_execute_command`; and with a non-empty computer key but no
config, the app, applescript and keystroke paths equal the fully local call,
the applescript path running the local `osascript` shell command. -/
theorem C10_local_dispatch_witness :
    CommandExecutor.isLocalComputer (CommandExecutor.ofHostEnv {}) none = true
    ∧ CommandExecutor.execute_command zeroEnv (CommandExecutor.ofHostEnv {}) (some "ls")
        (some "") (some { hostname := some "elsewhere.example" })
      = CommandExecutor.execute_command zeroEnv (CommandExecutor.ofHostEnv {}) (some "ls")
        none none
    ∧ CommandExecutor.execute_command zeroEnv (CommandExecutor.ofHostEnv {}) (some "ls")
        none (some { hostname := some "elsewhere.example" })
      = (if ("ls" : String) = "" then false else zeroEnv.shell "ls" == 0)
    ∧ CommandExecutor.execute_command zeroEnv (CommandExecutor.ofHostEnv {}) (some "ls")
        (some "desktop") (some { hostname := some "elsewhere.example" })
      = CommandExecutor.execute_remote_command zeroEnv "ls"
          { hostname := some "elsewhere.example" }
    ∧ CommandExecutor.execute_action zeroEnv (CommandExecutor.ofHostEnv {})
        (some { actionType := some "command", command := some "ls" }) none none
      = .ok (CommandExecutor.execute_command zeroEnv (CommandExecutor.ofHostEnv {})
          (some "ls") none none)
    ∧ CommandExecutor.open_app zeroEnv (CommandExecutor.ofHostEnv {}) (some "Safari")
        (some "desktop") none
      = CommandExecutor.open_app zeroEnv (CommandExecutor.ofHostEnv {}) (some "Safari")
        none none
    ∧ CommandExecutor.send_keystroke_from_shortcut zeroEnv (CommandExecutor.ofHostEnv {})
        (some "Cmd+C") (some "desktop") none
      = CommandExecutor.send_keystroke_from_shortcut zeroEnv (CommandExecutor.ofHostEnv {})
        (some "Cmd+C") none none
    ∧ CommandExecutor.execute_applescript zeroEnv (CommandExecutor.ofHostEnv {}) (some "beep")
        (some "desktop") none
      = (if ("beep" : String) = "" then false
         else zeroEnv.shell ("osascript -e \"" ++ escapeApplescript "beep" ++ "\" 2>&1") == 0) := by
  refine ⟨C10_local_dispatch.1 (CommandExecutor.ofHostEnv {}), ?_, ?_, ?_, ?_, ?_, ?_, ?_⟩
  · exact (C10_local_dispatch.2.1 zeroEnv (CommandExecutor.ofHostEnv {}) (some "ls")
      (some "") (some { hostname := some "elsewhere.example" }) (by decide)).1
  · exact C10_local_dispatch.2.2.1 zeroEnv (CommandExecutor.ofHostEnv {}) "ls"
      none (some { hostname := some "elsewhere.example" }) (Or.inl (by decide))
  · exact C10_local_dispatch.2.2.2.1 zeroEnv (CommandExecutor.ofHostEnv {}) "ls" "desktop"
      { hostname := some "elsewhere.example" } (by decide) (by decide) (by decide)
  · exact C10_local_dispatch.2.2.2.2.1 zeroEnv (CommandExecutor.ofHostEnv {})
      { actionType := some "command", command := some "ls" } none none rfl
  · exact (C10_local_dispatch.2.2.2.2.2.1 zeroEnv (CommandExecutor.ofHostEnv {})
      (some "Safari") (some "desktop") none (Or.inr (Or.inl rfl))).1
  · exact (C10_local_dispatch.2.2.2.2.2.1 zeroEnv (CommandExecutor.ofHostEnv {})
      (some "Cmd+C") (some "desktop") none (Or.inr (Or.inl rfl))).2.2
  · exact C10_local_dispatch.2.2.2.2.2.2 zeroEnv (CommandExecutor.ofHostEnv {}) "beep"
      (some "desktop") none (Or.inr (Or.inl rfl))
